import Mathlib

/-!
# ping-pong: signalling and session establishment

A verification development for `examples/ping-pong/main.go`.

The Go program is embedded as follows.

* Pure code (`CandidateInfo` and its JSON struct tags, `parseResp`) becomes
  Lean functions.
* Every goroutine body (`client`, `server`, the two HTTP handlers and the two
  `OnCandidate` callbacks) becomes a `Proc`: the sequence of observable
  actions the body performs, in program order, with channel receives binding
  the received value.  The results of calls into the outside world (standard
  input, the ICE agent, the HTTP client) are parameters of the embedding.
* `Proc.run` executes one goroutine on its own, on channels just made
  (`Proc.runWith` with the room the rest of the process leaves on them);
  `Sys.exec` interleaves several goroutines that share the two channels of
  the program.
-/

namespace PingPong

/-! ## Data model -/

/-- Go `error` values; `Option Error` is an `error` that may be `nil`. -/
abbrev Error := String

/-- Go `url.Values`, the type of `r.PostForm`: keys with their value lists. -/
abbrev Form := List (String × List String)

/-- Go `f[k]`: the value list stored under `k`, the nil slice when absent. -/
def Form.values (f : Form) (k : String) : List String :=
  (f.lookup k).getD []

/-- Go `f[k][0]`: the first value under `k`; `none` stands for the
index-out-of-range run-time panic. -/
def Form.first (f : Form) (k : String) : Option String :=
  (Form.values f k).head?

/-- An `ice.Candidate`, known to this program only through `Marshal()` and
through its `%s` rendering in log lines. -/
structure Candidate where
  marshal : String
  text : String
deriving DecidableEq, Repr

/-- The struct `CandidateInfo` (lines 33-37); Go zero values as defaults. -/
structure CandidateInfo where
  Ufrag : String := ""
  Pwd : String := ""
  Candidate : String := ""
deriving DecidableEq, Repr

/-- A JSON object whose members are strings, in the order they are written. -/
abbrev JsonObj := List (String × String)

/-- What `json.NewEncoder(w).Encode(c)` writes for a `*CandidateInfo`, by the
struct tags of lines 34-36: `ufrag` carries `omitempty`, `pwd` and `candidate`
do not. -/
def CandidateInfo.encode (c : CandidateInfo) : JsonObj :=
  (if c.Ufrag = "" then [] else [("ufrag", c.Ufrag)]) ++
    [("pwd", c.Pwd), ("candidate", c.Candidate)]

/-- A member name with its letters `A`-`Z` in lower case: `encoding/json`
matches a member to a struct field by name without regard to case. -/
def foldName (s : String) : List Char :=
  s.data.map Char.toLower

/-- One member of a JSON object stored into the struct field whose tag names
it, case-insensitively (the three tags differ from one another whatever the
case, so an exact match has nothing to be preferred to); members with other
names are ignored. -/
def CandidateInfo.setField (c : CandidateInfo) (kv : String × String) : CandidateInfo :=
  if foldName kv.1 = foldName "ufrag" then { c with Ufrag := kv.2 }
  else if foldName kv.1 = foldName "pwd" then { c with Pwd := kv.2 }
  else if foldName kv.1 = foldName "candidate" then { c with Candidate := kv.2 }
  else c

/-- What `json.Unmarshal` stores into a fresh `&CandidateInfo{}` for a JSON
object: members are processed in order, absent fields keep the zero value. -/
def CandidateInfo.decode (o : JsonObj) : CandidateInfo :=
  o.foldl CandidateInfo.setField {}

/-- A `[]byte` as far as this program looks at it: the nil slice; text that
`json.Unmarshal` accepts for a `CandidateInfo`, given by the string members
it stores, in order (what it accepts and skips, a `null` or a member of an
unknown name, is left out; the text `null` is `object []`); or text that
`json.Unmarshal` rejects. -/
inductive Bytes where
  | nil
  | object (o : JsonObj)
  | invalid
deriving DecidableEq, Repr

/-- Go `json.Unmarshal(bytes, &CandidateInfo{})`: `none` is a non-nil error. -/
def jsonUnmarshal : Bytes → Option CandidateInfo
  | Bytes.object o => some (CandidateInfo.decode o)
  | Bytes.nil => none
  | Bytes.invalid => none

/-- An `*http.Response`: the status code and what `ioutil.ReadAll(resp.Body)`
returns (data and error). -/
structure Response where
  StatusCode : Nat
  body : Bytes
  readErr : Option Error
deriving DecidableEq, Repr

/-- Go `ioutil.ReadAll(resp.Body)`. -/
def readAll (resp : Response) : Bytes × Option Error :=
  (resp.body, resp.readErr)

/-- The function `parseResp` (lines 354-367).  Both early returns hand back
the variable `err` of the `ReadAll` call. -/
def parseResp (resp : Response) : Bytes × Option Error :=
  let (body, err) := readAll resp
  if err ≠ none then (Bytes.nil, err)
  else if resp.StatusCode > 399 then (Bytes.nil, err)
  else (body, err)

/-! ## Goroutines as processes -/

/-- The two channels of the program (lines 26-27). -/
inductive Chan where
  | remoteAuthChannel
  | localCandidateChannel
deriving DecidableEq, Repr

/-- Buffer capacity of each channel, from `main` (lines 98-99):
`make(chan string, 3)` and `make(chan string)`. -/
def Chan.cap : Chan → Nat
  | Chan.remoteAuthChannel => 3
  | Chan.localCandidateChannel => 0

/-- Observable actions of the program: calls into the outside world (with
their arguments) and completed channel operations. -/
inductive Event where
  | print (msg : String)
  | log (format : String) (args : List String)
  | handleFunc (path : String)
  | listenAndServe (port : Nat)
  | readStdin
  | newAgent
  | onCandidate
  | onConnectionStateChange
  | getLocalUserCredentials
  | postForm (url : String) (form : Form)
  | gatherCandidates
  | dial (remoteUfrag remotePwd : String)
  | accept (remoteUfrag remotePwd : String)
  | addRemoteCandidate (c : Candidate)
  | encode (o : JsonObj)
  | sent (ch : Chan) (v : String)
  | received (ch : Chan) (v : String)
  | timerFired
deriving DecidableEq, Repr

/-- The body of one goroutine: what it does next and how it goes on. -/
inductive Proc where
  /-- the function returns -/
  | ret : Proc
  /-- a Go panic, from `panic(err)` or a run-time error -/
  | panic : Proc
  /-- the message loop over the established session, which never ends -/
  | messageLoop : Proc
  /-- a call or other observable action -/
  | emit (e : Event) (k : Proc) : Proc
  /-- `ch <- v` -/
  | send (ch : Chan) (v : String) (k : Proc) : Proc
  /-- `x := <-ch` -/
  | recv (ch : Chan) (k : String → Proc) : Proc
  /-- `select` with the cases `x := <-ch` and `<-time.After(...)` -/
  | select (ch : Chan) (k : String → Proc) (timeout : Proc) : Proc

/-- Results of the calls this program makes on one `*ice.Agent`; an
`Option Error` is the returned `err`. -/
structure AgentEnv where
  onCandidateErr : Option Error
  onConnectionStateChangeErr : Option Error
  localCreds : Except Error (String × String)
  gatherErr : Option Error
  connectErr : Option Error

/-- The error `iceAgent.AddRemoteCandidate(c)` returns for a candidate that
`ice.UnmarshalCandidate` produced: none.  In pion/ice v2 the call hands the
candidate over to the goroutine of the agent and returns nil; a failure
there is only logged. -/
def addRemoteCandidateErr (_c : Candidate) : Option Error :=
  none

/-- An incoming `*http.Request` as the handlers use it: the result of
`r.ParseForm()` and the `r.PostForm` it fills in. -/
structure Request where
  parseFormErr : Option Error
  PostForm : Form

/-- The result of `http.PostForm`. -/
abbrev PostResult := Except Error Response

/-- The remote address set in `main` (line 101). -/
def remoteHTTPHost : String := "1.15.130.58:9001"

/-- The listening port set in `main` (line 103). -/
def remoteHTTPPort : Nat := 9001

/-- The handler `remoteAuth` (lines 40-57).  `agent` holds the results of the
calls on the global `iceAgent`. -/
def remoteAuth (agent : AgentEnv) (r : Request) : Proc :=
  match r.parseFormErr with
  | some _ => Proc.panic
  | none =>
    match Form.first r.PostForm "ufrag" with
    | none => Proc.panic
    | some ufrag =>
      Proc.send Chan.remoteAuthChannel ufrag <|
      match Form.first r.PostForm "pwd" with
      | none => Proc.panic
      | some pwd =>
        Proc.send Chan.remoteAuthChannel pwd <|
        Proc.emit (Event.log "receive remote auth" []) <|
        Proc.emit Event.getLocalUserCredentials <|
        match agent.localCreds with
        | Except.error _ => Proc.panic
        | Except.ok (localUfrag, localPwd) =>
          Proc.emit (Event.encode
            (CandidateInfo.encode { Ufrag := localUfrag, Pwd := localPwd })) <|
          Proc.ret

/-- The handler `remoteCandidate` (lines 60-85).  `unmarshal` is
`ice.UnmarshalCandidate` (`none` for an error); `agent` stands for the global
`iceAgent`. -/
def remoteCandidate (unmarshal : String → Option Candidate) (_agent : AgentEnv)
    (r : Request) : Proc :=
  Proc.emit (Event.log "receive remote candidate" []) <|
  match r.parseFormErr with
  | some _ => Proc.panic
  | none =>
    match Form.first r.PostForm "candidate" with
    | none => Proc.panic
    | some s =>
      match unmarshal s with
      | none => Proc.panic
      | some c =>
        Proc.emit (Event.addRemoteCandidate c) <|
        match addRemoteCandidateErr c with
        | some _ => Proc.panic
        | none =>
          Proc.select Chan.localCandidateChannel
            (fun localCandidate =>
              Proc.emit (Event.encode
                (CandidateInfo.encode { Candidate := localCandidate })) <|
              Proc.ret)
            (Proc.emit Event.timerFired <|
              Proc.emit (Event.encode (CandidateInfo.encode { Candidate := "" })) <|
              Proc.emit (Event.log "no local candidate" []) <|
              Proc.ret)

/-- The callback the client registers with `OnCandidate` (lines 137-173), run
for one candidate `c` (`none` is Go `nil`).  `post` is the result of its
`http.PostForm` call. -/
def clientOnCandidate (unmarshal : String → Option Candidate) (_agent : AgentEnv)
    (post : PostResult) (c : Option Candidate) : Proc :=
  match c with
  | none => Proc.ret
  | some c =>
    Proc.emit (Event.log "local candidate is : %s" [c.text]) <|
    Proc.emit (Event.postForm ("http://" ++ remoteHTTPHost ++ "/remoteCandidate")
      [("candidate", [c.marshal])]) <|
    match post with
    | Except.error _ => Proc.panic
    | Except.ok resp =>
      match parseResp resp with
      | (_, some _) => Proc.panic
      | (bytes, none) =>
        match jsonUnmarshal bytes with
        | none => Proc.panic
        | some candidate =>
          if candidate.Candidate ≠ "" then
            match unmarshal candidate.Candidate with
            | none => Proc.panic
            | some remoteCandidate =>
              Proc.emit (Event.addRemoteCandidate remoteCandidate) <|
              match addRemoteCandidateErr remoteCandidate with
              | some _ => Proc.panic
              | none =>
                Proc.emit (Event.log "local candidate is : %s, remote candidate is %s"
                  [c.text, remoteCandidate.text]) <|
                Proc.ret
          else
            Proc.emit (Event.log "local candidate is : %s, remote candidate is empty"
              [c.text]) <|
            Proc.ret

/-- The callback the server registers with `OnCandidate` (lines 289-296), run
for one candidate `c` (`none` is Go `nil`). -/
def serverOnCandidate (c : Option Candidate) : Proc :=
  match c with
  | none => Proc.ret
  | some c =>
    Proc.emit (Event.log "local candidate is : %s" [c.text]) <|
    Proc.send Chan.localCandidateChannel c.marshal <|
    Proc.ret

/-- Results of the calls `client` makes outside the agent. -/
structure ClientEnv where
  stdinErr : Option Error
  newAgent : Except Error AgentEnv
  authPost : PostResult

/-- Results of the calls `server` makes outside the agent. -/
structure ServerEnv where
  stdinErr : Option Error
  newAgent : Except Error AgentEnv

/-- The first line both roles print (lines 119-123 and 270-274). -/
def roleBanner (isControlling : Bool) : String :=
  if isControlling then "Local Agent is controlling" else "Local Agent is controlled"

/-- The call of lines 217-222 and 315-320: `Dial` when controlling, `Accept`
otherwise. -/
def establishEvent (isControlling : Bool) (remoteUfrag remotePwd : String) : Event :=
  if isControlling then Event.dial remoteUfrag remotePwd
  else Event.accept remoteUfrag remotePwd

/-- Lines 217-225 and 315-323: the `Dial`/`Accept` call, then a panic on
error; what follows (lines 227-253, 325-351) is the message loop. -/
def establish (isControlling : Bool) (agent : AgentEnv)
    (remoteUfrag remotePwd : String) : Proc :=
  Proc.emit (establishEvent isControlling remoteUfrag remotePwd) <|
  match agent.connectErr with
  | some _ => Proc.panic
  | none => Proc.messageLoop

/-- The function `client` (lines 112-254). -/
def client (isControlling : Bool) (env : ClientEnv) : Proc :=
  Proc.emit (Event.print (roleBanner isControlling)) <|
  Proc.emit (Event.print "Press \x27Enter\x27 when both processes have started") <|
  Proc.emit Event.readStdin <|
  match env.stdinErr with
  | some _ => Proc.panic
  | none =>
    Proc.emit Event.newAgent <|
    match env.newAgent with
    | Except.error _ => Proc.panic
    | Except.ok agent =>
      Proc.emit Event.onCandidate <|
      match agent.onCandidateErr with
      | some _ => Proc.panic
      | none =>
        Proc.emit Event.onConnectionStateChange <|
        match agent.onConnectionStateChangeErr with
        | some _ => Proc.panic
        | none =>
          Proc.emit Event.getLocalUserCredentials <|
          match agent.localCreds with
          | Except.error _ => Proc.panic
          | Except.ok (localUfrag, localPwd) =>
            Proc.emit (Event.postForm ("http://" ++ remoteHTTPHost ++ "/remoteAuth")
              [("ufrag", [localUfrag]), ("pwd", [localPwd])]) <|
            match env.authPost with
            | Except.error _ => Proc.panic
            | Except.ok resp =>
              match parseResp resp with
              | (_, some _) => Proc.panic
              | (bytes, none) =>
                match jsonUnmarshal bytes with
                | none => Proc.panic
                | some candidate =>
                  let remoteUfrag := candidate.Ufrag
                  let remotePwd := candidate.Pwd
                  Proc.emit (Event.log "remote ufrag pwd is : %s,%s"
                    [remoteUfrag, remotePwd]) <|
                  Proc.emit Event.gatherCandidates <|
                  match agent.gatherErr with
                  | some _ => Proc.panic
                  | none => establish isControlling agent remoteUfrag remotePwd

/-- The function `server` (lines 256-352). -/
def server (isControlling : Bool) (env : ServerEnv) : Proc :=
  Proc.emit (Event.handleFunc "/remoteAuth") <|
  Proc.emit (Event.handleFunc "/remoteCandidate") <|
  Proc.emit (Event.listenAndServe remoteHTTPPort) <|
  Proc.emit (Event.print (roleBanner isControlling)) <|
  Proc.emit (Event.print "Press \x27Enter\x27 when both processes have started") <|
  Proc.emit Event.readStdin <|
  match env.stdinErr with
  | some _ => Proc.panic
  | none =>
    Proc.emit Event.newAgent <|
    match env.newAgent with
    | Except.error _ => Proc.panic
    | Except.ok agent =>
      Proc.emit Event.onCandidate <|
      match agent.onCandidateErr with
      | some _ => Proc.panic
      | none =>
        Proc.emit Event.onConnectionStateChange <|
        match agent.onConnectionStateChangeErr with
        | some _ => Proc.panic
        | none =>
          Proc.recv Chan.remoteAuthChannel fun remoteUfrag =>
          Proc.recv Chan.remoteAuthChannel fun remotePwd =>
          Proc.emit Event.gatherCandidates <|
          match agent.gatherErr with
          | some _ => Proc.panic
          | none => establish isControlling agent remoteUfrag remotePwd

/-- The function `main` (lines 90-110) once the flags are parsed: `isServer`
alone chooses between `server()` and `client()`. -/
def main (isServer isControlling : Bool) (cenv : ClientEnv) (senv : ServerEnv) : Proc :=
  if isServer then server isControlling senv else client isControlling cenv

/-! ## Running one goroutine -/

/-- How a goroutine stands when nothing more happens. -/
inductive Status where
  | returned
  | panicked
  | blocked
  | established
deriving DecidableEq, Repr

/-- The record of one run: the actions in order and the final status. -/
structure Run where
  trace : List Event
  status : Status
deriving DecidableEq, Repr

/-- A run with one more action in front. -/
def Run.cons (e : Event) (r : Run) : Run :=
  { r with trace := e :: r.trace }

/-- The places `room` leaves on each channel once one more send on `ch` has
completed. -/
def lessRoom (room : Chan → Nat) (ch : Chan) : Chan → Nat :=
  fun c => if c = ch then room c - 1 else room c

/-- The run of one goroutine, the rest of the process being given by `room`
and `feed`.  `room ch` is the number of sends on `ch` that will complete:
the free places of its buffer plus the receives the other goroutines make;
a send that finds no room blocks.  The successive receive operations get
the entries of `feed`: `some v` delivers `v`, `none` (or no entry) delivers
nothing, so a plain receive blocks and a `select` takes its timer case. -/
def Proc.runWith : Proc → (Chan → Nat) → List (Option String) → Run
  | Proc.ret, _, _ => { trace := [], status := Status.returned }
  | Proc.panic, _, _ => { trace := [], status := Status.panicked }
  | Proc.messageLoop, _, _ => { trace := [], status := Status.established }
  | Proc.emit e k, room, feed => Run.cons e (Proc.runWith k room feed)
  | Proc.send ch v k, room, feed =>
    if 0 < room ch then
      Run.cons (Event.sent ch v) (Proc.runWith k (lessRoom room ch) feed)
    else { trace := [], status := Status.blocked }
  | Proc.recv ch k, room, some v :: feed =>
    Run.cons (Event.received ch v) (Proc.runWith (k v) room feed)
  | Proc.recv _ _, _, _ => { trace := [], status := Status.blocked }
  | Proc.select ch k _, room, some v :: feed =>
    Run.cons (Event.received ch v) (Proc.runWith (k v) room feed)
  | Proc.select _ _ t, room, none :: feed => Proc.runWith t room feed
  | Proc.select _ _ t, room, [] => Proc.runWith t room []

/-- The run of one goroutine on its own, on channels just made: a send
completes while the buffer of its channel has a free place (`Chan.cap`: three
on `remoteAuthChannel`, none on `localCandidateChannel`). -/
def Proc.run (p : Proc) (feed : List (Option String)) : Run :=
  Proc.runWith p Chan.cap feed

/-! ## Properties of traces -/

/-- The values sent on `ch` in a trace, in order. -/
def sentValues (ch : Chan) (t : List Event) : List String :=
  t.filterMap fun e =>
    match e with
    | Event.sent c v => if c = ch then some v else none
    | _ => none

/-- The values received from `ch` in a trace, in order. -/
def receivedValues (ch : Chan) (t : List Event) : List String :=
  t.filterMap fun e =>
    match e with
    | Event.received c v => if c = ch then some v else none
    | _ => none

/-- A `Dial` or `Accept` call. -/
def Event.isEstablish : Event → Bool
  | Event.dial _ _ => true
  | Event.accept _ _ => true
  | _ => false

/-- A `Dial` call. -/
def Event.isDial : Event → Bool
  | Event.dial _ _ => true
  | _ => false

/-- An `Accept` call. -/
def Event.isAccept : Event → Bool
  | Event.accept _ _ => true
  | _ => false

/-- The log line 210 of `client`, written once the response is decoded. -/
def remoteCredentialLog (remoteUfrag remotePwd : String) : Event :=
  Event.log "remote ufrag pwd is : %s,%s" [remoteUfrag, remotePwd]

/-- The remote credential `client` obtains in lines 190-209 from the result
of its `/remoteAuth` post: `none` when the post, `parseResp` or
`json.Unmarshal` fails. -/
def clientObtained (post : PostResult) : Option (String × String) :=
  match post with
  | Except.error _ => none
  | Except.ok resp =>
    match parseResp resp with
    | (_, some _) => none
    | (bytes, none) => (jsonUnmarshal bytes).map fun c => (c.Ufrag, c.Pwd)

/-- The remote credential `server` obtains in lines 307-308 when its receives
get the entries of `feed`: `none` unless two values arrive. -/
def serverObtained : List (Option String) → Option (String × String)
  | some u :: some p :: _ => some (u, p)
  | _ => none

/-- Checker: walking the trace, the events of `need` are met in order before
any event satisfying `act`. -/
def precededBy (act : Event → Bool) : List Event → List Event → Bool
  | [], _ => true
  | _ :: _, [] => true
  | n :: ns, e :: t =>
    !act e && (if e = n then precededBy act ns t else precededBy act (n :: ns) t)

/-- Every step of `client` before the `Dial`/`Accept` call of lines 217-222
succeeds, so that the run reaches session establishment. -/
def clientReaches (env : ClientEnv) : Bool :=
  env.stdinErr.isNone &&
    match env.newAgent with
    | Except.error _ => false
    | Except.ok agent =>
      agent.onCandidateErr.isNone && agent.onConnectionStateChangeErr.isNone &&
        agent.localCreds.toBool && (clientObtained env.authPost).isSome &&
        agent.gatherErr.isNone

/-- Every step of `server` before the `Dial`/`Accept` call of lines 315-320
succeeds (both credential values arrive), so that the run reaches session
establishment. -/
def serverReaches (env : ServerEnv) (feed : List (Option String)) : Bool :=
  env.stdinErr.isNone &&
    match env.newAgent with
    | Except.error _ => false
    | Except.ok agent =>
      agent.onCandidateErr.isNone && agent.onConnectionStateChangeErr.isNone &&
        (serverObtained feed).isSome && agent.gatherErr.isNone

/-- The run of `main` reaches session establishment, in whichever role
`isServer` selects. -/
def mainReaches (isServer : Bool) (cenv : ClientEnv) (senv : ServerEnv)
    (feed : List (Option String)) : Bool :=
  if isServer then serverReaches senv feed else clientReaches cenv

/-! ## One HTTP exchange -/

/-- The values a run sent on `ch`, in order. -/
def Run.sentOn (ch : Chan) (r : Run) : List String :=
  sentValues ch r.trace

/-- The JSON documents a run wrote with `Encode`, in order. -/
def Run.encoded (r : Run) : List JsonObj :=
  r.trace.filterMap fun e =>
    match e with
    | Event.encode o => some o
    | _ => none

/-- The response body made of the documents a handler wrote: one document is
a JSON object; none, or several in a row, is text `json.Unmarshal` rejects. -/
def bodyOf : List JsonObj → Bytes
  | [o] => Bytes.object o
  | _ => Bytes.invalid

/-- What `http.PostForm` returns for a request served by a handler whose run
is `h`, over a working connection: status 200 with what the handler wrote
when it returned; an error when it panicked or never answered (the server
drops the connection, or the 3 s client timeout of line 117 expires). -/
def httpReply (h : Run) : PostResult :=
  match h.status with
  | Status.returned =>
    Except.ok { StatusCode := 200, body := bodyOf (Run.encoded h), readErr := none }
  | _ => Except.error "no response"

/-- The request the server sees for a posted form that arrives intact. -/
def requestOf (form : Form) : Request :=
  { parseFormErr := none, PostForm := form }

/-- The values a run received from `ch`, in order. -/
def Run.receivedOn (ch : Chan) (r : Run) : List String :=
  receivedValues ch r.trace

/-- A write of a JSON document to the response. -/
def Event.isEncode : Event → Bool
  | Event.encode _ => true
  | _ => false

/-- An `AddRemoteCandidate` call. -/
def Event.isAddRemoteCandidate : Event → Bool
  | Event.addRemoteCandidate _ => true
  | _ => false

/-- What the first receive operation of a run gets from `feed`. -/
def delivered : List (Option String) → Option String
  | some v :: _ => some v
  | _ => none

/-- The names of the members of a JSON object. -/
def JsonObj.keys (o : JsonObj) : List String :=
  o.map Prod.fst

/-! ## The server process: goroutines side by side -/

/-- Sequencing: `p`, and once it returns, `q`. -/
def Proc.andThen : Proc → Proc → Proc
  | Proc.ret, q => q
  | Proc.panic, _ => Proc.panic
  | Proc.messageLoop, _ => Proc.messageLoop
  | Proc.emit e k, q => Proc.emit e (Proc.andThen k q)
  | Proc.send ch v k, q => Proc.send ch v (Proc.andThen k q)
  | Proc.recv ch k, q => Proc.recv ch fun v => Proc.andThen (k v) q
  | Proc.select ch k t, q => Proc.select ch (fun v => Proc.andThen (k v) q) (Proc.andThen t q)

/-- The goroutine in which the agent runs the registered `OnCandidate`
callback of the server, once for each gathered candidate, one after the
other. -/
def serverCandidateNotifier : List (Option Candidate) → Proc
  | [] => Proc.ret
  | c :: cs => Proc.andThen (serverOnCandidate c) (serverCandidateNotifier cs)

/-- The buffers of the two channels, oldest value first. -/
structure Bufs where
  remoteAuthChannel : List String
  localCandidateChannel : List String
deriving DecidableEq, Repr

/-- The buffer of `ch`. -/
def Bufs.get (b : Bufs) : Chan → List String
  | Chan.remoteAuthChannel => b.remoteAuthChannel
  | Chan.localCandidateChannel => b.localCandidateChannel

/-- The buffers with that of `ch` replaced by `q`. -/
def Bufs.set (b : Bufs) (ch : Chan) (q : List String) : Bufs :=
  match ch with
  | Chan.remoteAuthChannel => { b with remoteAuthChannel := q }
  | Chan.localCandidateChannel => { b with localCandidateChannel := q }

/-- The state of one process: its goroutines (numbered from 0), the buffers
of the channels and the actions so far. -/
structure Sys where
  procs : List Proc
  bufs : Bufs
  trace : List Event

/-- Goroutine `i`; past the end of the list there is nothing to run. -/
def Sys.proc (s : Sys) (i : Nat) : Proc :=
  s.procs.getD i Proc.ret

/-- What the scheduler may do next: let goroutine `i` take a step of its own,
pass a value from a sender `i` straight to a waiting receiver `j`, or fire
the timer of the `select` goroutine `j` waits in. -/
inductive Choice where
  | run (i : Nat)
  | handOff (i j : Nat)
  | timer (j : Nat)
deriving DecidableEq, Repr

/-- The channel a goroutine waits to receive from, with its continuation. -/
def Proc.receiver : Proc → Option (Chan × (String → Proc))
  | Proc.recv ch k => some (ch, k)
  | Proc.select ch k _ => some (ch, k)
  | _ => none

/-- One scheduling step; `none` when the choice is not enabled.  A send
completes on its own when the buffer has room (`Chan.cap`), a receive when
the buffer holds a value (the oldest is taken); a hand-off needs a sender
and a receiver on the same channel with an empty buffer.  A goroutine that
returned, panicked or sits in the message loop takes no step.  (In Go a
panic outside an HTTP handler ends the whole process; letting the other
goroutines go on only adds executions.) -/
def Sys.step (s : Sys) : Choice → Option Sys
  | Choice.run i =>
    match s.proc i with
    | Proc.emit e k => some { s with procs := s.procs.set i k, trace := s.trace ++ [e] }
    | Proc.send ch v k =>
      if (s.bufs.get ch).length < ch.cap then
        some { procs := s.procs.set i k, bufs := s.bufs.set ch (s.bufs.get ch ++ [v]),
               trace := s.trace ++ [Event.sent ch v] }
      else none
    | Proc.recv ch k =>
      match s.bufs.get ch with
      | v :: q =>
        some { procs := s.procs.set i (k v), bufs := s.bufs.set ch q,
               trace := s.trace ++ [Event.received ch v] }
      | [] => none
    | Proc.select ch k _ =>
      match s.bufs.get ch with
      | v :: q =>
        some { procs := s.procs.set i (k v), bufs := s.bufs.set ch q,
               trace := s.trace ++ [Event.received ch v] }
      | [] => none
    | _ => none
  | Choice.handOff i j =>
    match s.proc i, Proc.receiver (s.proc j) with
    | Proc.send ch v k, some (ch', k') =>
      if i ≠ j ∧ ch = ch' ∧ s.bufs.get ch = [] then
        some { s with
          procs := (s.procs.set i k).set j (k' v),
          trace := s.trace ++ [Event.sent ch v, Event.received ch v] }
      else none
    | _, _ => none
  | Choice.timer j =>
    match s.proc j with
    | Proc.select _ _ t => some { s with procs := s.procs.set j t }
    | _ => none

/-- A run of the scheduler along a list of choices; `none` when one of them
is not enabled. -/
def Sys.exec (s : Sys) : List Choice → Option Sys
  | [] => some s
  | c :: cs => (s.step c).bind fun s' => Sys.exec s' cs

/-- The start of a process with the goroutines `ps`: empty buffers, nothing
done. -/
def Sys.start (ps : List Proc) : Sys :=
  { procs := ps, bufs := { remoteAuthChannel := [], localCandidateChannel := [] }, trace := [] }

/-- The server process: goroutine 0 runs `server`, then one goroutine for
each `/remoteAuth` request, one for each `/remoteCandidate` request, and the
goroutine that runs the `OnCandidate` callback for the gathered candidates.
`agent` is what the handlers find in the global `iceAgent`.  The scheduler
decides when each goroutine moves, so a request, or a gathered candidate, may
turn up at any moment. -/
def serverProcess (isControlling : Bool) (env : ServerEnv)
    (unmarshal : String → Option Candidate) (agent : AgentEnv)
    (auths cands : List Request) (gathered : List (Option Candidate)) : Sys :=
  Sys.start (server isControlling env :: (auths.map (remoteAuth agent) ++
    (cands.map (remoteCandidate unmarshal agent) ++ [serverCandidateNotifier gathered])))

/-- A completed channel operation. -/
def Event.isChannelOp : Event → Bool
  | Event.sent _ _ => true
  | Event.received _ _ => true
  | _ => false

/-- The goroutine never receives from `ch` (and its other actions are not
mistaken for channel operations). -/
def Proc.noRecv (ch : Chan) : Proc → Prop
  | Proc.emit e k => e.isChannelOp = false ∧ Proc.noRecv ch k
  | Proc.send _ _ k => Proc.noRecv ch k
  | Proc.recv c k => c ≠ ch ∧ ∀ v, Proc.noRecv ch (k v)
  | Proc.select c k t => c ≠ ch ∧ (∀ v, Proc.noRecv ch (k v)) ∧ Proc.noRecv ch t
  | _ => True

/-- The goroutine never receives from `remoteAuthChannel` and never calls
`Dial` or `Accept`. -/
def Proc.quiet : Proc → Prop
  | Proc.emit e k => e.isChannelOp = false ∧ e.isEstablish = false ∧ Proc.quiet k
  | Proc.send _ _ k => Proc.quiet k
  | Proc.recv c k => c ≠ Chan.remoteAuthChannel ∧ ∀ v, Proc.quiet (k v)
  | Proc.select c k t =>
    c ≠ Chan.remoteAuthChannel ∧ (∀ v, Proc.quiet (k v)) ∧ Proc.quiet t
  | _ => True

/-- The values received from `remoteAuthChannel` once one more receive, from
`c`, has delivered `v`. -/
def afterReceive (c : Chan) (received : List String) (v : String) : List String :=
  if c = Chan.remoteAuthChannel then received ++ [v] else received

/-- Having received `received` from `remoteAuthChannel` so far, the goroutine
calls `Dial`/`Accept` only when exactly two values `u`, `p` were received,
and then as `establishEvent isControlling u p`. -/
def Proc.guarded (isControlling : Bool) : List String → Proc → Prop
  | received, Proc.emit e k =>
    e.isChannelOp = false ∧
    (e.isEstablish = true →
      ∃ u p, received = [u, p] ∧ e = establishEvent isControlling u p) ∧
    Proc.guarded isControlling received k
  | received, Proc.send _ _ k => Proc.guarded isControlling received k
  | received, Proc.recv c k =>
    ∀ v, Proc.guarded isControlling (afterReceive c received v) (k v)
  | received, Proc.select c k t =>
    (∀ v, Proc.guarded isControlling (afterReceive c received v) (k v)) ∧
    Proc.guarded isControlling received t
  | _, _ => True

/-- In the trace, every `Dial`/`Accept` call comes when exactly two values
have been received from `remoteAuthChannel`, and has them as arguments. -/
def establishedAfterReceive (isControlling : Bool) (t : List Event) : Prop :=
  ∀ pre e post, t = pre ++ e :: post → e.isEstablish = true →
    ∃ u p, receivedValues Chan.remoteAuthChannel pre = [u, p] ∧
      e = establishEvent isControlling u p

/-- At every point of the trace, the values received from
`remoteAuthChannel` so far are the first of the values sent on it so far. -/
def causal (t : List Event) : Prop :=
  ∀ pre, pre <+: t →
    receivedValues Chan.remoteAuthChannel pre <+: sentValues Chan.remoteAuthChannel pre

/-- What goroutine `i` has to satisfy under the invariant. -/
def Good (isControlling : Bool) (received : List String) : Nat → Proc → Prop
  | 0, p => Proc.guarded isControlling received p
  | _ + 1, p => Proc.quiet p

/-- The shape part of the invariant, for a list of goroutines. -/
def Shape (isControlling : Bool) (received : List String) (ps : List Proc) : Prop :=
  ∃ m rest, ps = m :: rest ∧ Proc.guarded isControlling received m ∧ ∀ p ∈ rest, Proc.quiet p

/-- The invariant of a server process: goroutine 0 is guarded, the others
are quiet, the channel is first-in first-out, and the trace so far is as
`establishedAfterReceive` and `causal` say. -/
def ServerInv (isControlling : Bool) (s : Sys) : Prop :=
  Shape isControlling (receivedValues Chan.remoteAuthChannel s.trace) s.procs ∧
  sentValues Chan.remoteAuthChannel s.trace =
    receivedValues Chan.remoteAuthChannel s.trace ++ s.bufs.get Chan.remoteAuthChannel ∧
  establishedAfterReceive isControlling s.trace ∧
  causal s.trace

/-- The values `remoteAuth` sends on `remoteAuthChannel` for the request `r`
when every send completes (lines 41-46): none when the form fails to parse or
has no `ufrag`, the ufrag alone when it has no `pwd`, the ufrag and then the
pwd otherwise. -/
def requestValues (r : Request) : List String :=
  match r.parseFormErr with
  | some _ => []
  | none =>
    match Form.first r.PostForm "ufrag" with
    | none => []
    | some ufrag =>
      match Form.first r.PostForm "pwd" with
      | none => [ufrag]
      | some pwd => [ufrag, pwd]

/-- The values the goroutine still sends on `remoteAuthChannel` are, in
order, the first of `vs`. -/
def Proc.sendsWithin : List String → Proc → Prop
  | vs, Proc.emit e k => e.isChannelOp = false ∧ Proc.sendsWithin vs k
  | vs, Proc.send c v k =>
    if c = Chan.remoteAuthChannel then ∃ rest, vs = v :: rest ∧ Proc.sendsWithin rest k
    else Proc.sendsWithin vs k
  | vs, Proc.recv _ k => ∀ v, Proc.sendsWithin vs (k v)
  | vs, Proc.select _ k t => (∀ v, Proc.sendsWithin vs (k v)) ∧ Proc.sendsWithin vs t
  | _, _ => True

/-- The invariant of a server process that serves the one `/remoteAuth`
request `r` in goroutine 1: what was sent on `remoteAuthChannel`, followed by
what goroutine 1 may still send, is `requestValues r`, and no other goroutine
sends on that channel. -/
def SendInv (r : Request) (s : Sys) : Prop :=
  ∃ vs, sentValues Chan.remoteAuthChannel s.trace ++ vs = requestValues r ∧
    ∀ j, Proc.sendsWithin (if j = 1 then vs else []) (s.proc j)

/-! ## Sample inputs -/

/-- An agent whose calls all succeed, with the local credential `(u, p)`. -/
def agentOk (u p : String) : AgentEnv :=
  { onCandidateErr := none, onConnectionStateChangeErr := none,
    localCreds := Except.ok (u, p), gatherErr := none, connectErr := none }

/-- A response with status 200 whose body carries the JSON object `o`. -/
def responseOk (o : JsonObj) : Response :=
  { StatusCode := 200, body := Bytes.object o, readErr := none }

/-- A client environment in which every call succeeds: local credential
`("uc", "pc")`, and the peer answers with `("us", "ps")`. -/
def sampleClientEnv : ClientEnv :=
  { stdinErr := none, newAgent := Except.ok (agentOk "uc" "pc"),
    authPost := Except.ok
      (responseOk (CandidateInfo.encode { Ufrag := "us", Pwd := "ps" })) }

/-- A server environment in which every call succeeds, with the local
credential `("us", "ps")`. -/
def sampleServerEnv : ServerEnv :=
  { stdinErr := none, newAgent := Except.ok (agentOk "us" "ps") }

/-- A candidate as the client gathers it. -/
def sampleCandidate : Candidate :=
  { marshal := "1052353102 1 udp 2130706431 192.168.1.2 53421 typ host",
    text := "udp4 host 192.168.1.2:53421" }

/-- A candidate as the server gathers it. -/
def sampleServerCandidate : Candidate :=
  { marshal := "2118738115 1 udp 2130706431 1.15.130.58 40012 typ host",
    text := "udp4 host 1.15.130.58:40012" }

/-- An `ice.UnmarshalCandidate` that accepts the two sample candidates and
rejects every other string. -/
def unmarshalSample (s : String) : Option Candidate :=
  if s = sampleCandidate.marshal then some sampleCandidate
  else if s = sampleServerCandidate.marshal then some sampleServerCandidate
  else none

/-- The `/remoteCandidate` request that carries the client sample candidate. -/
def sampleCandidateRequest : Request :=
  requestOf [("candidate", [sampleCandidate.marshal])]

/-- A second candidate of the server, on another interface. -/
def sampleServerCandidate2 : Candidate :=
  { marshal := "3903451972 1 udp 2130706431 172.17.0.1 40013 typ host",
    text := "udp4 host 172.17.0.1:40013" }

/-- A server process that serves one `/remoteAuth` and one `/remoteCandidate`
request (the client gathered one candidate) while its own agent gathers two
candidates. -/
def relayProcess : Sys :=
  serverProcess false sampleServerEnv unmarshalSample (agentOk "us" "ps")
    [requestOf [("ufrag", ["uc"]), ("pwd", ["pc"])]] [sampleCandidateRequest]
    [some sampleServerCandidate, some sampleServerCandidate2]

/-- A schedule of `relayProcess`: the credential exchange, `GatherCandidates`,
the `/remoteCandidate` request served with the first server candidate, the
callback for the second server candidate, and `Accept`. -/
def relaySchedule : List Choice :=
  List.replicate 9 (Choice.run 0) ++ List.replicate 5 (Choice.run 1) ++
    List.replicate 3 (Choice.run 0) ++
    [Choice.run 2, Choice.run 2, Choice.run 3, Choice.handOff 3 2, Choice.run 2,
      Choice.run 3, Choice.run 0]

/-- The state `relaySchedule` leads to: the server is in the message loop,
both handlers have returned, and the callback for the second server
candidate waits to send on `localCandidateChannel`. -/
def relayStuck : Sys :=
  { procs := [Proc.messageLoop, Proc.ret, Proc.ret,
      Proc.send Chan.localCandidateChannel sampleServerCandidate2.marshal Proc.ret],
    bufs := { remoteAuthChannel := [], localCandidateChannel := [] },
    trace := [Event.handleFunc "/remoteAuth", Event.handleFunc "/remoteCandidate",
      Event.listenAndServe 9001, Event.print "Local Agent is controlled",
      Event.print "Press \x27Enter\x27 when both processes have started", Event.readStdin,
      Event.newAgent, Event.onCandidate, Event.onConnectionStateChange,
      Event.sent Chan.remoteAuthChannel "uc", Event.sent Chan.remoteAuthChannel "pc",
      Event.log "receive remote auth" [], Event.getLocalUserCredentials,
      Event.encode [("ufrag", "us"), ("pwd", "ps"), ("candidate", "")],
      Event.received Chan.remoteAuthChannel "uc", Event.received Chan.remoteAuthChannel "pc",
      Event.gatherCandidates,
      Event.log "receive remote candidate" [], Event.addRemoteCandidate sampleCandidate,
      Event.log "local candidate is : %s" [sampleServerCandidate.text],
      Event.sent Chan.localCandidateChannel sampleServerCandidate.marshal,
      Event.received Chan.localCandidateChannel sampleServerCandidate.marshal,
      Event.encode [("pwd", ""), ("candidate", sampleServerCandidate.marshal)],
      Event.log "local candidate is : %s" [sampleServerCandidate2.text],
      Event.accept "uc" "pc"] }

/-- A server process that serves one `/remoteAuth` request. -/
def authProcess : Sys :=
  serverProcess false sampleServerEnv unmarshalSample (agentOk "us" "ps")
    [requestOf [("ufrag", ["uc"]), ("pwd", ["pc"])]] [] []

/-- A schedule of `authProcess`: `server` runs up to its first receive, the
handler does its two sends, and `server` goes on through both receives,
`GatherCandidates` and `Accept`. -/
def earlySchedule : List Choice :=
  List.replicate 9 (Choice.run 0) ++ [Choice.run 1, Choice.run 1] ++
    List.replicate 4 (Choice.run 0)

/-- The state `earlySchedule` leads to: the server has called `Accept`, the
handler has not yet logged, read the local credential or encoded it. -/
def earlyState : Sys :=
  { procs := [Proc.messageLoop,
      Proc.emit (Event.log "receive remote auth" []) <|
        Proc.emit Event.getLocalUserCredentials <|
        Proc.emit (Event.encode [("ufrag", "us"), ("pwd", "ps"), ("candidate", "")]) <|
        Proc.ret,
      Proc.ret],
    bufs := { remoteAuthChannel := [], localCandidateChannel := [] },
    trace := [Event.handleFunc "/remoteAuth", Event.handleFunc "/remoteCandidate",
      Event.listenAndServe 9001, Event.print "Local Agent is controlled",
      Event.print "Press \x27Enter\x27 when both processes have started", Event.readStdin,
      Event.newAgent, Event.onCandidate, Event.onConnectionStateChange,
      Event.sent Chan.remoteAuthChannel "uc", Event.sent Chan.remoteAuthChannel "pc",
      Event.received Chan.remoteAuthChannel "uc", Event.received Chan.remoteAuthChannel "pc",
      Event.gatherCandidates, Event.accept "uc" "pc"] }

/-- A server process that serves two `/remoteAuth` requests, the first with a
`ufrag` but no `pwd`, the second complete. -/
def mixedProcess : Sys :=
  serverProcess false sampleServerEnv unmarshalSample (agentOk "us" "ps")
    [requestOf [("ufrag", ["u1"])], requestOf [("ufrag", ["u2"]), ("pwd", ["p2"])]] [] []

/-- A schedule of `mixedProcess`: `server` runs up to its first receive, the
first handler sends its ufrag, the second handler sends its ufrag, and
`server` goes on through both receives, `GatherCandidates` and `Accept`. -/
def mixedSchedule : List Choice :=
  List.replicate 9 (Choice.run 0) ++ [Choice.run 1, Choice.run 2] ++
    List.replicate 4 (Choice.run 0)

/-- The state `mixedSchedule` leads to: the first handler has panicked on the
missing `pwd`, the second is about to send its pwd, and the server has called
`Accept` with the two ufrags. -/
def mixedState : Sys :=
  { procs := [Proc.messageLoop, Proc.panic,
      Proc.send Chan.remoteAuthChannel "p2" <|
        Proc.emit (Event.log "receive remote auth" []) <|
        Proc.emit Event.getLocalUserCredentials <|
        Proc.emit (Event.encode [("ufrag", "us"), ("pwd", "ps"), ("candidate", "")]) <|
        Proc.ret,
      Proc.ret],
    bufs := { remoteAuthChannel := [], localCandidateChannel := [] },
    trace := [Event.handleFunc "/remoteAuth", Event.handleFunc "/remoteCandidate",
      Event.listenAndServe 9001, Event.print "Local Agent is controlled",
      Event.print "Press \x27Enter\x27 when both processes have started", Event.readStdin,
      Event.newAgent, Event.onCandidate, Event.onConnectionStateChange,
      Event.sent Chan.remoteAuthChannel "u1", Event.sent Chan.remoteAuthChannel "u2",
      Event.received Chan.remoteAuthChannel "u1", Event.received Chan.remoteAuthChannel "u2",
      Event.gatherCandidates, Event.accept "u1" "u2"] }

/-! # Theorems -/

/-! ## Trace checkers -/

theorem precededBy_sound (act : Event → Bool) :
    ∀ (t need pre : List Event) (e : Event) (post : List Event),
      precededBy act need t = true → t = pre ++ e :: post → act e = true →
      need.Sublist pre := by
  intro t
  induction t with
  | nil =>
    intro need pre e post _ h _
    simp at h
  | cons x t ih =>
    intro need pre e post hc h he
    cases need with
    | nil => exact List.nil_sublist pre
    | cons n ns =>
      simp only [precededBy, Bool.and_eq_true, Bool.not_eq_true'] at hc
      obtain ⟨hx, hrest⟩ := hc
      cases pre with
      | nil =>
        simp at h
        rw [h.1] at hx
        rw [hx] at he
        cases he
      | cons y pre =>
        simp at h
        obtain ⟨hxy, ht⟩ := h
        subst hxy
        by_cases hxn : x = n
        · rw [if_pos hxn] at hrest
          subst hxn
          exact List.Sublist.cons₂ _ (ih ns pre e post hrest ht he)
        · rw [if_neg hxn] at hrest
          exact List.Sublist.cons _ (ih (n :: ns) pre e post hrest ht he)

theorem client_fail_run (isControlling : Bool) (env : ClientEnv) (feed : List (Option String))
    (h : clientObtained env.authPost = none) :
    ((client isControlling env).run feed).status = Status.panicked ∧
      ∀ x ∈ ((client isControlling env).run feed).trace, x.isEstablish = false := by
  obtain ⟨stdin, na, post⟩ := env
  unfold client establish
  simp only [clientObtained] at h
  repeat' split
  all_goals simp_all [Proc.run, Proc.runWith, lessRoom, Chan.cap, Run.cons, Event.isEstablish]

theorem client_ok_run (isControlling : Bool) (env : ClientEnv) (feed : List (Option String))
    (u p : String) (h : clientObtained env.authPost = some (u, p)) :
    precededBy Event.isEstablish [remoteCredentialLog u p]
        ((client isControlling env).run feed).trace = true ∧
      ∀ x ∈ ((client isControlling env).run feed).trace, x.isEstablish = true →
        x = establishEvent isControlling u p := by
  obtain ⟨stdin, na, post⟩ := env
  unfold client establish
  simp only [clientObtained] at h
  repeat' split
  all_goals simp_all [Proc.run, Proc.runWith, lessRoom, Chan.cap, Run.cons, Event.isEstablish, precededBy, remoteCredentialLog, establish]

theorem server_fail_run (isControlling : Bool) (env : ServerEnv) (feed : List (Option String))
    (h : serverObtained feed = none) :
    ((server isControlling env).run feed).status ≠ Status.established ∧
      ∀ x ∈ ((server isControlling env).run feed).trace, x.isEstablish = false := by
  unfold server
  repeat' split
  all_goals
    rcases feed with _ | ⟨_ | u, _ | ⟨_ | p, rest⟩⟩ <;>
      simp_all [Proc.run, Proc.runWith, lessRoom, Chan.cap, Run.cons, Event.isEstablish, serverObtained]

theorem server_ok_run (isControlling : Bool) (env : ServerEnv) (feed : List (Option String))
    (u p : String) (h : serverObtained feed = some (u, p)) :
    precededBy Event.isEstablish
        [Event.received Chan.remoteAuthChannel u, Event.received Chan.remoteAuthChannel p]
        ((server isControlling env).run feed).trace = true ∧
      ∀ x ∈ ((server isControlling env).run feed).trace, x.isEstablish = true →
        x = establishEvent isControlling u p := by
  rcases feed with _ | ⟨_ | u', _ | ⟨_ | p', rest⟩⟩ <;> simp [serverObtained] at h
  obtain ⟨rfl, rfl⟩ := h
  unfold server establish
  repeat' split
  all_goals simp_all [Proc.run, Proc.runWith, lessRoom, Chan.cap, Run.cons, Event.isEstablish, precededBy]


theorem client_counts (isControlling : Bool) (env : ClientEnv) (feed : List (Option String)) :
    ((client isControlling env).run feed).trace.countP Event.isDial =
        (if clientReaches env && isControlling then 1 else 0) ∧
    ((client isControlling env).run feed).trace.countP Event.isAccept =
        (if clientReaches env && !isControlling then 1 else 0) ∧
    (((client isControlling env).run feed).status = Status.established →
        clientReaches env = true) := by
  obtain ⟨stdin, na, post⟩ := env
  unfold client establish
  repeat' split
  all_goals cases isControlling
  all_goals simp_all [Proc.run, Proc.runWith, lessRoom, Chan.cap, Run.cons, Event.isDial, Event.isAccept, clientReaches,
    clientObtained, establishEvent, Except.toBool]

theorem server_counts (isControlling : Bool) (env : ServerEnv) (feed : List (Option String)) :
    ((server isControlling env).run feed).trace.countP Event.isDial =
        (if serverReaches env feed && isControlling then 1 else 0) ∧
    ((server isControlling env).run feed).trace.countP Event.isAccept =
        (if serverReaches env feed && !isControlling then 1 else 0) ∧
    (((server isControlling env).run feed).status = Status.established →
        serverReaches env feed = true) := by
  obtain ⟨stdin, na⟩ := env
  unfold server establish
  repeat' split
  all_goals
    rcases feed with _ | ⟨_ | u, _ | ⟨_ | p, rest⟩⟩ <;> cases isControlling <;>
      simp_all [Proc.run, Proc.runWith, lessRoom, Chan.cap, Run.cons, Event.isDial, Event.isAccept, serverReaches,
        serverObtained, establishEvent]

theorem foldName_distinct :
    foldName "pwd" ≠ foldName "ufrag" ∧ foldName "candidate" ≠ foldName "ufrag" ∧
    foldName "candidate" ≠ foldName "pwd" := by
  decide

theorem decode_encode (c : CandidateInfo) : CandidateInfo.decode (CandidateInfo.encode c) = c := by
  obtain ⟨u, p, k⟩ := c
  have h1 := foldName_distinct.1
  have h2 := foldName_distinct.2.1
  have h3 := foldName_distinct.2.2
  by_cases h : u = ""
  · simp [CandidateInfo.decode, CandidateInfo.encode, CandidateInfo.setField, h, h1, h2, h3]
  · simp [CandidateInfo.decode, CandidateInfo.encode, CandidateInfo.setField, h, h1, h2, h3]

theorem client_establish_filter (isControlling : Bool) (env : ClientEnv)
    (feed : List (Option String)) :
    ((client isControlling env).run feed).trace.filter Event.isEstablish =
      if clientReaches env then
        (clientObtained env.authPost).toList.map fun up => establishEvent isControlling up.1 up.2
      else [] := by
  obtain ⟨stdin, na, post⟩ := env
  unfold client establish
  repeat' split
  all_goals cases isControlling
  all_goals simp_all [Proc.run, Proc.runWith, lessRoom, Chan.cap, Run.cons, Event.isEstablish, clientReaches,
    clientObtained, establishEvent, Except.toBool]

theorem server_establish_filter (isControlling : Bool) (env : ServerEnv)
    (feed : List (Option String)) :
    ((server isControlling env).run feed).trace.filter Event.isEstablish =
      if serverReaches env feed then
        (serverObtained feed).toList.map fun up => establishEvent isControlling up.1 up.2
      else [] := by
  obtain ⟨stdin, na⟩ := env
  unfold server establish
  repeat' split
  all_goals
    rcases feed with _ | ⟨_ | u, _ | ⟨_ | p, rest⟩⟩ <;> cases isControlling <;>
      simp_all [Proc.run, Proc.runWith, lessRoom, Chan.cap, Run.cons, Event.isEstablish, serverReaches,
        serverObtained, establishEvent]

theorem client_posted_form (isControlling : Bool) (env : ClientEnv)
    (feed : List (Option String)) (agent : AgentEnv) (u p : String)
    (ha : env.newAgent = Except.ok agent) (hl : agent.localCreds = Except.ok (u, p)) :
    ∀ url form, Event.postForm url form ∈ ((client isControlling env).run feed).trace →
      form = [("ufrag", [u]), ("pwd", [p])] := by
  obtain ⟨stdin, na, post⟩ := env
  simp only at ha
  subst ha
  unfold client establish
  repeat' split
  all_goals cases isControlling
  all_goals simp_all [Proc.run, Proc.runWith, lessRoom, Chan.cap, Run.cons, establishEvent]

/-! ## Invariants of the server process -/

theorem receiver_noRecv (ch : Chan) (p : Proc) (c : Chan) (k : String → Proc)
    (h : Proc.receiver p = some (c, k)) (hp : Proc.noRecv ch p) :
    c ≠ ch ∧ ∀ v, Proc.noRecv ch (k v) := by
  cases p <;> simp [Proc.receiver] at h
  · obtain ⟨rfl, rfl⟩ := h
    exact hp
  · obtain ⟨rfl, rfl⟩ := h
    exact ⟨hp.1, hp.2.1⟩

theorem receivedValues_append (ch : Chan) (t d : List Event) :
    receivedValues ch (t ++ d) = receivedValues ch t ++ receivedValues ch d := by
  simp [receivedValues]

theorem sentValues_append (ch : Chan) (t d : List Event) :
    sentValues ch (t ++ d) = sentValues ch t ++ sentValues ch d := by
  simp [sentValues]

theorem receivedValues_plain (ch : Chan) (e : Event) (h : e.isChannelOp = false) :
    receivedValues ch [e] = [] := by
  cases e <;> simp [receivedValues, Event.isChannelOp] at h ⊢

theorem sentValues_plain (ch : Chan) (e : Event) (h : e.isChannelOp = false) :
    sentValues ch [e] = [] := by
  cases e <;> simp [sentValues, Event.isChannelOp] at h ⊢

theorem proc_mem (s : Sys) (i : Nat) (p : Proc) (h : s.proc i = p) (hp : p ≠ Proc.ret) :
    p ∈ s.procs := by
  unfold Sys.proc at h
  rw [List.getD_eq_getElem?_getD] at h
  cases hi : s.procs[i]? with
  | none =>
    rw [hi] at h
    exact absurd h.symm hp
  | some q =>
    rw [hi] at h
    simp only [Option.getD_some] at h
    subst h
    exact List.getElem?_mem hi

theorem receiver_ne_ret (p : Proc) (c : Chan) (k : String → Proc)
    (h : Proc.receiver p = some (c, k)) : p ≠ Proc.ret := by
  intro hp
  subst hp
  simp [Proc.receiver] at h

theorem noRecv_step (ch : Chan) (s s' : Sys) (c : Choice)
    (hp : ∀ p ∈ s.procs, Proc.noRecv ch p) (hs : s.step c = some s') :
    (∀ p ∈ s'.procs, Proc.noRecv ch p) ∧
      receivedValues ch s'.trace = receivedValues ch s.trace := by
  have hset : ∀ (i : Nat) (k : Proc), Proc.noRecv ch k →
      ∀ p ∈ s.procs.set i k, Proc.noRecv ch p := by
    intro i k hk p hmem
    rcases List.mem_or_eq_of_mem_set hmem with h | h
    · exact hp p h
    · rw [h]; exact hk
  cases c with
  | run i =>
    simp only [Sys.step] at hs
    split at hs
    · rename_i e k hpi
      have hi := hp _ (proc_mem s i _ hpi (by simp))
      simp only [Option.some.injEq] at hs
      subst hs
      exact ⟨hset i k hi.2, by simp [receivedValues_append, receivedValues_plain ch e hi.1]⟩
    · rename_i c v k hpi
      have hi := hp _ (proc_mem s i _ hpi (by simp))
      split at hs
      · simp only [Option.some.injEq] at hs
        subst hs
        exact ⟨hset i k hi, by simp [receivedValues]⟩
      · cases hs
    · rename_i c k hpi
      have hi := hp _ (proc_mem s i _ hpi (by simp))
      split at hs
      · simp only [Option.some.injEq] at hs
        subst hs
        exact ⟨hset i _ (hi.2 _), by simp [receivedValues, hi.1]⟩
      · cases hs
    · rename_i c k t hpi
      have hi := hp _ (proc_mem s i _ hpi (by simp))
      split at hs
      · simp only [Option.some.injEq] at hs
        subst hs
        exact ⟨hset i _ (hi.2.1 _), by simp [receivedValues, hi.1]⟩
      · cases hs
    · cases hs
  | handOff i j =>
    simp only [Sys.step] at hs
    split at hs
    · rename_i c v k c' k' hpi hpj
      split at hs
      · rename_i hcond
        simp only [Option.some.injEq] at hs
        subst hs
        have hj := receiver_noRecv ch _ _ _ hpj
          (hp _ (proc_mem s j _ rfl (receiver_ne_ret _ _ _ hpj)))
        have hi := hp _ (proc_mem s i _ hpi (by simp))
        obtain ⟨_, hcc, _⟩ := hcond
        subst hcc
        refine ⟨?_, ?_⟩
        · intro p hmem
          rcases List.mem_or_eq_of_mem_set hmem with h | h
          · exact hset i k hi p h
          · rw [h]; exact hj.2 v
        · simp [receivedValues, hj.1]
      · cases hs
    · cases hs
  | timer j =>
    simp only [Sys.step] at hs
    split at hs
    · rename_i c k t hpj
      have hj := hp _ (proc_mem s j _ hpj (by simp))
      simp only [Option.some.injEq] at hs
      subst hs
      exact ⟨hset j t hj.2.2, rfl⟩
    · cases hs

theorem noRecv_exec (ch : Chan) (sched : List Choice) :
    ∀ (s s' : Sys), (∀ p ∈ s.procs, Proc.noRecv ch p) → s.exec sched = some s' →
      receivedValues ch s'.trace = receivedValues ch s.trace := by
  induction sched with
  | nil =>
    intro s s' _ h
    simp only [Sys.exec, Option.some.injEq] at h
    rw [h]
  | cons c cs ih =>
    intro s s' hp h
    simp only [Sys.exec] at h
    cases hstep : s.step c with
    | none => simp [hstep] at h
    | some s1 =>
      simp only [hstep, Option.some_bind] at h
      obtain ⟨hp1, ht1⟩ := noRecv_step ch s s1 c hp hstep
      rw [ih s1 s' hp1 h, ht1]

theorem split_snoc (t : List Event) (x : Event) (pre : List Event) (e : Event)
    (post : List Event) (h : t ++ [x] = pre ++ e :: post) :
    (pre = t ∧ e = x ∧ post = []) ∨ ∃ post', t = pre ++ e :: post' ∧ post = post' ++ [x] := by
  rcases List.eq_nil_or_concat post with hp | ⟨post', y, hp⟩
  · subst hp
    left
    have h' : t ++ [x] = pre ++ [e] := h
    have := List.append_inj' h' rfl
    simp at this
    exact ⟨this.1.symm, this.2.symm, rfl⟩
  · subst hp
    right
    have h' : t ++ [x] = (pre ++ e :: post') ++ [y] := by
      rw [h]; simp
    have := List.append_inj' h' rfl
    simp at this
    exact ⟨post', this.1, by rw [this.2]; simp⟩

theorem est_snoc (ic : Bool) (t : List Event) (x : Event)
    (ht : establishedAfterReceive ic t)
    (hx : x.isEstablish = true →
      ∃ u p, receivedValues Chan.remoteAuthChannel t = [u, p] ∧ x = establishEvent ic u p) :
    establishedAfterReceive ic (t ++ [x]) := by
  intro pre e post h he
  rcases split_snoc t x pre e post h with ⟨rfl, rfl, _⟩ | ⟨post', h1, _⟩
  · exact hx he
  · exact ht pre e post' h1 he

theorem causal_snoc (t : List Event) (x : Event) (ht : causal t)
    (hx : receivedValues Chan.remoteAuthChannel (t ++ [x]) <+:
      sentValues Chan.remoteAuthChannel (t ++ [x])) :
    causal (t ++ [x]) := by
  intro pre hpre
  rcases List.prefix_concat_iff.mp hpre with h | h
  · rw [h]; exact hx
  · exact ht pre h

theorem receiver_quiet (p : Proc) (c : Chan) (k : String → Proc)
    (h : Proc.receiver p = some (c, k)) (hp : Proc.quiet p) :
    c ≠ Chan.remoteAuthChannel ∧ ∀ v, Proc.quiet (k v) := by
  cases p <;> simp [Proc.receiver] at h
  · obtain ⟨rfl, rfl⟩ := h
    exact hp
  · obtain ⟨rfl, rfl⟩ := h
    exact ⟨hp.1, hp.2.1⟩

theorem receiver_guarded (ic : Bool) (r : List String) (p : Proc) (c : Chan)
    (k : String → Proc) (h : Proc.receiver p = some (c, k)) (hp : Proc.guarded ic r p) :
    ∀ v, Proc.guarded ic (afterReceive c r v) (k v) := by
  cases p <;> simp [Proc.receiver] at h
  · obtain ⟨rfl, rfl⟩ := h
    exact hp
  · obtain ⟨rfl, rfl⟩ := h
    exact hp.1

theorem good_ret (ic : Bool) (r : List String) (i : Nat) : Good ic r i Proc.ret := by
  cases i <;> simp [Good, Proc.guarded, Proc.quiet]

theorem shape_good (ic : Bool) (r : List String) (ps : List Proc) (h : Shape ic r ps)
    (i : Nat) : Good ic r i (ps.getD i Proc.ret) := by
  obtain ⟨m, rest, rfl, hm, hrest⟩ := h
  cases i with
  | zero => simpa [Good] using hm
  | succ j =>
    simp only [Good, List.getD_cons_succ]
    rw [List.getD_eq_getElem?_getD]
    cases hj : rest[j]? with
    | none => simp [Proc.quiet]
    | some q => exact hrest q (List.getElem?_mem hj)

theorem shape_set (ic : Bool) (r : List String) (ps : List Proc) (h : Shape ic r ps)
    (i : Nat) (k : Proc) (hk : Good ic r i k) : Shape ic r (ps.set i k) := by
  obtain ⟨m, rest, rfl, hm, hrest⟩ := h
  cases i with
  | zero => exact ⟨k, rest, by simp, hk, hrest⟩
  | succ j =>
    refine ⟨m, rest.set j k, by simp, hm, ?_⟩
    intro p hp
    rcases List.mem_or_eq_of_mem_set hp with h | h
    · exact hrest p h
    · rw [h]; exact hk

theorem shape_receive (ic : Bool) (r r' : List String) (ps : List Proc)
    (h : Shape ic r ps) (k : Proc) (hk : Proc.guarded ic r' k) :
    Shape ic r' (ps.set 0 k) := by
  obtain ⟨m, rest, rfl, _, hrest⟩ := h
  exact ⟨k, rest, by simp, hk, hrest⟩

theorem bufs_get_set (b : Bufs) (ch : Chan) (q : List String) : (b.set ch q).get ch = q := by
  cases ch <;> rfl

theorem bufs_get_set_ne (b : Bufs) (ch c : Chan) (q : List String) (h : c ≠ ch) :
    (b.set ch q).get c = b.get c := by
  cases ch <;> cases c <;> first | rfl | exact absurd rfl h

theorem inv_snoc (ic : Bool) (s : Sys) (hinv : ServerInv ic s) (x : Event)
    (procs' : List Proc) (bufs' : Bufs)
    (hshape : Shape ic (receivedValues Chan.remoteAuthChannel (s.trace ++ [x])) procs')
    (hfifo : sentValues Chan.remoteAuthChannel (s.trace ++ [x]) =
      receivedValues Chan.remoteAuthChannel (s.trace ++ [x]) ++ bufs'.get Chan.remoteAuthChannel)
    (hx : x.isEstablish = true →
      ∃ u p, receivedValues Chan.remoteAuthChannel s.trace = [u, p] ∧
        x = establishEvent ic u p) :
    ServerInv ic { procs := procs', bufs := bufs', trace := s.trace ++ [x] } := by
  refine ⟨hshape, hfifo, est_snoc ic s.trace x hinv.2.2.1 hx, ?_⟩
  apply causal_snoc s.trace x hinv.2.2.2
  rw [hfifo]
  exact List.prefix_append _ _

theorem inv_emit (ic : Bool) (s : Sys) (hinv : ServerInv ic s) (i : Nat) (e : Event)
    (k : Proc) (hpi : s.proc i = Proc.emit e k) :
    ServerInv ic { procs := s.procs.set i k, bufs := s.bufs, trace := s.trace ++ [e] } := by
  have hgood := shape_good ic _ s.procs hinv.1 i
  rw [show s.procs.getD i Proc.ret = Proc.emit e k from hpi] at hgood
  have hplain : e.isChannelOp = false := by
    cases i <;> exact hgood.1
  have hr : receivedValues Chan.remoteAuthChannel (s.trace ++ [e]) =
      receivedValues Chan.remoteAuthChannel s.trace := by
    simp [receivedValues_append, receivedValues_plain _ e hplain]
  have hsv : sentValues Chan.remoteAuthChannel (s.trace ++ [e]) =
      sentValues Chan.remoteAuthChannel s.trace := by
    simp [sentValues_append, sentValues_plain _ e hplain]
  apply inv_snoc ic s hinv
  · rw [hr]
    apply shape_set ic _ s.procs hinv.1
    cases i with
    | zero => exact hgood.2.2
    | succ j => exact hgood.2.2
  · rw [hr, hsv]; exact hinv.2.1
  · intro he
    cases i with
    | zero => exact hgood.2.1 he
    | succ j =>
      have := hgood.2.1
      rw [he] at this
      cases this

theorem inv_send (ic : Bool) (s : Sys) (hinv : ServerInv ic s) (i : Nat) (ch : Chan)
    (v : String) (k : Proc) (hpi : s.proc i = Proc.send ch v k) :
    ServerInv ic { procs := s.procs.set i k, bufs := s.bufs.set ch (s.bufs.get ch ++ [v]),
                   trace := s.trace ++ [Event.sent ch v] } := by
  have hgood := shape_good ic _ s.procs hinv.1 i
  rw [show s.procs.getD i Proc.ret = Proc.send ch v k from hpi] at hgood
  have hr : receivedValues Chan.remoteAuthChannel (s.trace ++ [Event.sent ch v]) =
      receivedValues Chan.remoteAuthChannel s.trace := by
    simp [receivedValues]
  apply inv_snoc ic s hinv
  · rw [hr]
    apply shape_set ic _ s.procs hinv.1
    cases i with
    | zero => exact hgood
    | succ j => exact hgood
  · rw [hr]
    by_cases hc : ch = Chan.remoteAuthChannel
    · subst hc
      rw [bufs_get_set, sentValues_append, hinv.2.1]
      simp [sentValues]
    · rw [bufs_get_set_ne _ _ _ _ (Ne.symm hc), sentValues_append, hinv.2.1]
      simp [sentValues, hc]
  · intro he
    simp [Event.isEstablish] at he

theorem inv_recv (ic : Bool) (s : Sys) (hinv : ServerInv ic s) (j : Nat) (ch : Chan)
    (k : String → Proc) (v : String) (q : List String)
    (hpj : Proc.receiver (s.proc j) = some (ch, k)) (hb : s.bufs.get ch = v :: q) :
    ServerInv ic { procs := s.procs.set j (k v), bufs := s.bufs.set ch q,
                   trace := s.trace ++ [Event.received ch v] } := by
  have hgood := shape_good ic _ s.procs hinv.1 j
  have hsv : sentValues Chan.remoteAuthChannel (s.trace ++ [Event.received ch v]) =
      sentValues Chan.remoteAuthChannel s.trace := by
    simp [sentValues]
  by_cases hc : ch = Chan.remoteAuthChannel
  · subst hc
    have hr : receivedValues Chan.remoteAuthChannel
        (s.trace ++ [Event.received Chan.remoteAuthChannel v]) =
        receivedValues Chan.remoteAuthChannel s.trace ++ [v] := by
      simp [receivedValues]
    cases j with
    | succ j' =>
      exact absurd rfl (receiver_quiet _ _ _ hpj hgood).1
    | zero =>
      have hk := receiver_guarded ic _ _ _ _ hpj hgood v
      simp only [afterReceive, if_true] at hk
      apply inv_snoc ic s hinv
      · rw [hr]
        exact shape_receive ic _ _ s.procs hinv.1 _ hk
      · rw [hr, hsv, bufs_get_set, hinv.2.1, hb]
        simp
      · intro he
        simp [Event.isEstablish] at he
  · have hr : receivedValues Chan.remoteAuthChannel (s.trace ++ [Event.received ch v]) =
        receivedValues Chan.remoteAuthChannel s.trace := by
      simp [receivedValues, hc]
    apply inv_snoc ic s hinv
    · rw [hr]
      apply shape_set ic _ s.procs hinv.1
      cases j with
      | zero =>
        have hk := receiver_guarded ic _ _ _ _ hpj hgood v
        simp only [afterReceive, if_neg hc] at hk
        exact hk
      | succ j' => exact (receiver_quiet _ _ _ hpj hgood).2 v
    · rw [hr, hsv, bufs_get_set_ne _ _ _ _ (Ne.symm hc)]
      exact hinv.2.1
    · intro he
      simp [Event.isEstablish] at he

theorem inv_timer (ic : Bool) (s : Sys) (hinv : ServerInv ic s) (j : Nat) (c : Chan)
    (k : String → Proc) (t : Proc) (hpj : s.proc j = Proc.select c k t) :
    ServerInv ic { procs := s.procs.set j t, bufs := s.bufs, trace := s.trace } := by
  have hgood := shape_good ic _ s.procs hinv.1 j
  rw [show s.procs.getD j Proc.ret = Proc.select c k t from hpj] at hgood
  refine ⟨?_, hinv.2.1, hinv.2.2.1, hinv.2.2.2⟩
  apply shape_set ic _ s.procs hinv.1
  cases j with
  | zero => exact hgood.2
  | succ j' => exact hgood.2.2

theorem bufs_set_set (b : Bufs) (ch : Chan) (q : List String) (h : b.get ch = []) :
    (b.set ch q).set ch [] = b := by
  obtain ⟨a, l⟩ := b
  cases ch
  · simp only [Bufs.get] at h
    simp [Bufs.set, h]
  · simp only [Bufs.get] at h
    simp [Bufs.set, h]

theorem proc_set_ne (s : Sys) (i j : Nat) (k : Proc) (h : i ≠ j) :
    (s.procs.set i k).getD j Proc.ret = s.proc j := by
  simp [Sys.proc, List.getElem?_set_ne h]

theorem step_preserves (I : Sys → Prop)
    (hemit : ∀ (s : Sys) (i : Nat) (e : Event) (k : Proc), I s → s.proc i = Proc.emit e k →
      I { procs := s.procs.set i k, bufs := s.bufs, trace := s.trace ++ [e] })
    (hsend : ∀ (s : Sys) (i : Nat) (ch : Chan) (v : String) (k : Proc), I s →
      s.proc i = Proc.send ch v k →
      I { procs := s.procs.set i k, bufs := s.bufs.set ch (s.bufs.get ch ++ [v]),
          trace := s.trace ++ [Event.sent ch v] })
    (hrecv : ∀ (s : Sys) (j : Nat) (ch : Chan) (k : String → Proc) (v : String)
      (q : List String), I s → Proc.receiver (s.proc j) = some (ch, k) →
      s.bufs.get ch = v :: q →
      I { procs := s.procs.set j (k v), bufs := s.bufs.set ch q,
          trace := s.trace ++ [Event.received ch v] })
    (htimer : ∀ (s : Sys) (j : Nat) (c : Chan) (k : String → Proc) (t : Proc), I s →
      s.proc j = Proc.select c k t →
      I { procs := s.procs.set j t, bufs := s.bufs, trace := s.trace })
    (s s' : Sys) (c : Choice) (hinv : I s) (hs : s.step c = some s') : I s' := by
  cases c with
  | run i =>
    simp only [Sys.step] at hs
    split at hs
    · rename_i e k hpi
      simp only [Option.some.injEq] at hs
      subst hs
      exact hemit s i e k hinv hpi
    · rename_i ch v k hpi
      split at hs
      · simp only [Option.some.injEq] at hs
        subst hs
        exact hsend s i ch v k hinv hpi
      · cases hs
    · rename_i ch k hpi
      split at hs
      · rename_i v q hb
        simp only [Option.some.injEq] at hs
        subst hs
        exact hrecv s i ch k v q hinv (by rw [hpi]; rfl) hb
      · cases hs
    · rename_i ch k t hpi
      split at hs
      · rename_i v q hb
        simp only [Option.some.injEq] at hs
        subst hs
        exact hrecv s i ch k v q hinv (by rw [hpi]; rfl) hb
      · cases hs
    · cases hs
  | handOff i j =>
    simp only [Sys.step] at hs
    split at hs
    · rename_i ch v k ch' k' hpi hpj
      split at hs
      · rename_i hcond
        obtain ⟨hij, hcc, hb⟩ := hcond
        subst hcc
        simp only [Option.some.injEq] at hs
        subst hs
        have hmid := hsend s i ch v k hinv hpi
        have hrecv' := hrecv _ j ch k' v [] hmid
          (by
            show Proc.receiver ((s.procs.set i k).getD j Proc.ret) = some (ch, k')
            rw [proc_set_ne s i j k hij]; exact hpj)
          (by
            show (s.bufs.set ch (s.bufs.get ch ++ [v])).get ch = [v]
            rw [bufs_get_set, hb]; rfl)
        simp only [bufs_set_set s.bufs ch _ hb, List.append_assoc, List.singleton_append]
          at hrecv'
        exact hrecv'
      · cases hs
    · cases hs
  | timer j =>
    simp only [Sys.step] at hs
    split at hs
    · rename_i c k t hpj
      simp only [Option.some.injEq] at hs
      subst hs
      exact htimer s j c k t hinv hpj
    · cases hs

theorem exec_preserves (I : Sys → Prop)
    (hstep : ∀ (s s' : Sys) (c : Choice), I s → s.step c = some s' → I s')
    (sched : List Choice) :
    ∀ (s s' : Sys), I s → s.exec sched = some s' → I s' := by
  induction sched with
  | nil =>
    intro s s' hinv h
    simp only [Sys.exec, Option.some.injEq] at h
    rw [← h]; exact hinv
  | cons c cs ih =>
    intro s s' hinv h
    simp only [Sys.exec] at h
    cases hs : s.step c with
    | none => simp [hs] at h
    | some s1 =>
      simp only [hs, Option.some_bind] at h
      exact ih s1 s' (hstep s s1 c hinv hs) h

theorem procs_set (P : Nat → Proc → Prop) (s : Sys) (i : Nat) (k : Proc)
    (hother : ∀ j, j ≠ i → P j (s.proc j)) (hk : P i k) (hret : P i Proc.ret) :
    ∀ j, P j ((s.procs.set i k).getD j Proc.ret) := by
  intro j
  by_cases hj : j = i
  · subst hj
    rw [List.getD_eq_getElem?_getD]
    by_cases hlen : j < s.procs.length
    · rw [List.getElem?_set_self hlen]; exact hk
    · rw [List.getElem?_eq_none (by simp; omega)]
      exact hret
  · rw [proc_set_ne s i j k (Ne.symm hj)]
    exact hother j hj

theorem inv_step (ic : Bool) (s s' : Sys) (c : Choice) (hinv : ServerInv ic s)
    (hs : s.step c = some s') : ServerInv ic s' :=
  step_preserves (ServerInv ic)
    (fun s i e k h hp => inv_emit ic s h i e k hp)
    (fun s i ch v k h hp => inv_send ic s h i ch v k hp)
    (fun s j ch k v q h hp hb => inv_recv ic s h j ch k v q hp hb)
    (fun s j c k t h hp => inv_timer ic s h j c k t hp)
    s s' c hinv hs

theorem inv_exec (ic : Bool) (sched : List Choice) :
    ∀ (s s' : Sys), ServerInv ic s → s.exec sched = some s' → ServerInv ic s' :=
  exec_preserves (ServerInv ic) (inv_step ic) sched

theorem quiet_andThen (p q : Proc) (hp : Proc.quiet p) (hq : Proc.quiet q) :
    Proc.quiet (Proc.andThen p q) := by
  induction p with
  | ret => exact hq
  | panic => trivial
  | messageLoop => trivial
  | emit e k ih => exact ⟨hp.1, hp.2.1, ih hp.2.2⟩
  | send ch v k ih => exact ih hp
  | recv ch k ih => exact ⟨hp.1, fun v => ih v (hp.2 v)⟩
  | select ch k t ihk iht => exact ⟨hp.1, fun v => ihk v (hp.2.1 v), iht hp.2.2⟩

theorem quiet_serverOnCandidate (c : Option Candidate) : Proc.quiet (serverOnCandidate c) := by
  cases c <;> simp [serverOnCandidate, Proc.quiet, Event.isChannelOp, Event.isEstablish]

theorem quiet_serverCandidateNotifier (cs : List (Option Candidate)) :
    Proc.quiet (serverCandidateNotifier cs) := by
  induction cs with
  | nil => trivial
  | cons c cs ih => exact quiet_andThen _ _ (quiet_serverOnCandidate c) ih

theorem quiet_remoteAuth (agent : AgentEnv) (r : Request) : Proc.quiet (remoteAuth agent r) := by
  unfold remoteAuth
  repeat' split
  all_goals simp [Proc.quiet, Event.isChannelOp, Event.isEstablish]

theorem quiet_remoteCandidate (unmarshal : String → Option Candidate) (agent : AgentEnv)
    (r : Request) : Proc.quiet (remoteCandidate unmarshal agent r) := by
  unfold remoteCandidate
  repeat' split
  all_goals simp [Proc.quiet, Event.isChannelOp, Event.isEstablish]

theorem guarded_server (ic : Bool) (env : ServerEnv) : Proc.guarded ic [] (server ic env) := by
  unfold server establish
  repeat' split
  all_goals cases ic
  all_goals simp [Proc.guarded, Event.isChannelOp, Event.isEstablish, afterReceive,
    establishEvent]

theorem inv_start (ic : Bool) (env : ServerEnv) (unmarshal : String → Option Candidate)
    (agent : AgentEnv) (auths cands : List Request) (gathered : List (Option Candidate)) :
    ServerInv ic (serverProcess ic env unmarshal agent auths cands gathered) := by
  refine ⟨⟨_, _, rfl, guarded_server ic env, ?_⟩, rfl, ?_, ?_⟩
  · intro p hp
    simp only [List.mem_append, List.mem_map, List.mem_singleton] at hp
    rcases hp with ⟨r, _, rfl⟩ | ⟨r, _, rfl⟩ | rfl
    · exact quiet_remoteAuth agent r
    · exact quiet_remoteCandidate unmarshal agent r
    · exact quiet_serverCandidateNotifier gathered
  · intro pre e post h
    simp [serverProcess, Sys.start] at h
  · intro pre h
    simp only [serverProcess, Sys.start, List.prefix_nil] at h
    subst h
    exact List.prefix_refl _

theorem received_sublist (ch : Chan) :
    ∀ (t : List Event) (vs : List String), vs.Sublist (receivedValues ch t) →
      (vs.map (Event.received ch)).Sublist t := by
  intro t
  induction t with
  | nil =>
    intro vs h
    simp [receivedValues] at h
    subst h
    simp
  | cons e t ih =>
    intro vs h
    by_cases he : ∃ v, e = Event.received ch v
    · obtain ⟨v, rfl⟩ := he
      have hr : receivedValues ch (Event.received ch v :: t) = v :: receivedValues ch t := by
        simp [receivedValues]
      rw [hr] at h
      cases h with
      | cons _ h' => exact List.Sublist.cons _ (ih vs h')
      | cons₂ _ h' =>
        rename_i vs'
        exact List.Sublist.cons₂ _ (ih vs' h')
    · have hr : receivedValues ch (e :: t) = receivedValues ch t := by
        cases e <;> simp [receivedValues] at he ⊢
        rename_i c v
        simp [List.filterMap_cons, he]
      rw [hr] at h
      exact List.Sublist.cons _ (ih vs h)

theorem sent_sublist (ch : Chan) :
    ∀ (t : List Event) (vs : List String), vs.Sublist (sentValues ch t) →
      (vs.map (Event.sent ch)).Sublist t := by
  intro t
  induction t with
  | nil =>
    intro vs h
    simp [sentValues] at h
    subst h
    simp
  | cons e t ih =>
    intro vs h
    by_cases he : ∃ v, e = Event.sent ch v
    · obtain ⟨v, rfl⟩ := he
      have hr : sentValues ch (Event.sent ch v :: t) = v :: sentValues ch t := by
        simp [sentValues]
      rw [hr] at h
      cases h with
      | cons _ h' => exact List.Sublist.cons _ (ih vs h')
      | cons₂ _ h' =>
        rename_i vs'
        exact List.Sublist.cons₂ _ (ih vs' h')
    · have hr : sentValues ch (e :: t) = sentValues ch t := by
        cases e <;> simp [sentValues] at he ⊢
        rename_i c v
        simp [List.filterMap_cons, he]
      rw [hr] at h
      exact List.Sublist.cons _ (ih vs h)

theorem sendInv_emit (r : Request) (s : Sys) (i : Nat) (e : Event) (k : Proc)
    (hinv : SendInv r s) (hpi : s.proc i = Proc.emit e k) :
    SendInv r { procs := s.procs.set i k, bufs := s.bufs, trace := s.trace ++ [e] } := by
  obtain ⟨vs, hsent, hall⟩ := hinv
  have hi := hall i
  rw [hpi] at hi
  refine ⟨vs, ?_, ?_⟩
  · simp only [sentValues_append, sentValues_plain _ e hi.1, List.append_nil]
    exact hsent
  · exact procs_set (fun j p => Proc.sendsWithin (if j = 1 then vs else []) p) s i k
      (fun j _ => hall j) hi.2 trivial

theorem sendInv_send (r : Request) (s : Sys) (i : Nat) (ch : Chan) (v : String) (k : Proc)
    (hinv : SendInv r s) (hpi : s.proc i = Proc.send ch v k) :
    SendInv r { procs := s.procs.set i k, bufs := s.bufs.set ch (s.bufs.get ch ++ [v]),
                trace := s.trace ++ [Event.sent ch v] } := by
  obtain ⟨vs, hsent, hall⟩ := hinv
  have hi := hall i
  rw [hpi] at hi
  by_cases hc : ch = Chan.remoteAuthChannel
  · subst hc
    simp only [Proc.sendsWithin, if_true] at hi
    obtain ⟨rest, hvs, hk⟩ := hi
    have hi1 : i = 1 := by
      by_cases h1 : i = 1
      · exact h1
      · simp [h1] at hvs
    subst hi1
    simp only [if_true] at hvs
    subst hvs
    refine ⟨rest, ?_, ?_⟩
    · rw [← hsent]
      simp [sentValues]
    · apply procs_set (fun j p => Proc.sendsWithin (if j = 1 then rest else []) p) s 1 k
      · intro j hj
        have := hall j
        simpa [hj] using this
      · simpa using hk
      · trivial
  · simp only [Proc.sendsWithin, if_neg hc] at hi
    refine ⟨vs, ?_, ?_⟩
    · rw [← hsent]
      simp [sentValues, hc]
    · exact procs_set (fun j p => Proc.sendsWithin (if j = 1 then vs else []) p) s i k
        (fun j _ => hall j) hi trivial

theorem receiver_sendsWithin (vs : List String) (p : Proc) (c : Chan) (k : String → Proc)
    (h : Proc.receiver p = some (c, k)) (hp : Proc.sendsWithin vs p) :
    ∀ v, Proc.sendsWithin vs (k v) := by
  cases p <;> simp [Proc.receiver] at h
  · obtain ⟨rfl, rfl⟩ := h
    exact hp
  · obtain ⟨rfl, rfl⟩ := h
    exact hp.1

theorem sendInv_recv (r : Request) (s : Sys) (j : Nat) (ch : Chan) (k : String → Proc)
    (v : String) (q : List String) (hinv : SendInv r s)
    (hpj : Proc.receiver (s.proc j) = some (ch, k)) :
    SendInv r { procs := s.procs.set j (k v), bufs := s.bufs.set ch q,
                trace := s.trace ++ [Event.received ch v] } := by
  obtain ⟨vs, hsent, hall⟩ := hinv
  refine ⟨vs, ?_, ?_⟩
  · rw [← hsent]
    simp [sentValues]
  · exact procs_set (fun j p => Proc.sendsWithin (if j = 1 then vs else []) p) s j (k v)
      (fun i _ => hall i) (receiver_sendsWithin _ _ _ _ hpj (hall j) v) trivial

theorem sendInv_timer (r : Request) (s : Sys) (j : Nat) (c : Chan) (k : String → Proc)
    (t : Proc) (hinv : SendInv r s) (hpj : s.proc j = Proc.select c k t) :
    SendInv r { procs := s.procs.set j t, bufs := s.bufs, trace := s.trace } := by
  obtain ⟨vs, hsent, hall⟩ := hinv
  have hj := hall j
  rw [hpj] at hj
  exact ⟨vs, hsent, procs_set (fun j p => Proc.sendsWithin (if j = 1 then vs else []) p) s j t
    (fun i _ => hall i) hj.2 trivial⟩

theorem sendInv_step (r : Request) (s s' : Sys) (c : Choice) (hinv : SendInv r s)
    (hs : s.step c = some s') : SendInv r s' :=
  step_preserves (SendInv r)
    (fun s i e k h hp => sendInv_emit r s i e k h hp)
    (fun s i ch v k h hp => sendInv_send r s i ch v k h hp)
    (fun s j ch k v q h hp _ => sendInv_recv r s j ch k v q h hp)
    (fun s j c k t h hp => sendInv_timer r s j c k t h hp)
    s s' c hinv hs

theorem sendsWithin_andThen (p q : Proc) (hp : Proc.sendsWithin [] p)
    (hq : Proc.sendsWithin [] q) : Proc.sendsWithin [] (Proc.andThen p q) := by
  induction p with
  | ret => exact hq
  | panic => trivial
  | messageLoop => trivial
  | emit e k ih => exact ⟨hp.1, ih hp.2⟩
  | send ch v k ih =>
    by_cases hc : ch = Chan.remoteAuthChannel
    · subst hc
      simp [Proc.sendsWithin] at hp
    · simp only [Proc.sendsWithin, if_neg hc] at hp
      simp only [Proc.andThen, Proc.sendsWithin, if_neg hc]
      exact ih hp
  | recv ch k ih => exact fun v => ih v (hp v)
  | select ch k t ihk iht => exact ⟨fun v => ihk v (hp.1 v), iht hp.2⟩

theorem sendsWithin_notifier (cs : List (Option Candidate)) :
    Proc.sendsWithin [] (serverCandidateNotifier cs) := by
  induction cs with
  | nil => trivial
  | cons c cs ih =>
    apply sendsWithin_andThen _ _ _ ih
    cases c <;> simp [serverOnCandidate, Proc.sendsWithin, Event.isChannelOp]

theorem sendsWithin_remoteCandidate (unmarshal : String → Option Candidate) (agent : AgentEnv)
    (r : Request) : Proc.sendsWithin [] (remoteCandidate unmarshal agent r) := by
  unfold remoteCandidate
  repeat' split
  all_goals simp [Proc.sendsWithin, Event.isChannelOp]

theorem sendsWithin_server (ic : Bool) (env : ServerEnv) :
    Proc.sendsWithin [] (server ic env) := by
  unfold server establish
  repeat' split
  all_goals cases ic
  all_goals simp [Proc.sendsWithin, Event.isChannelOp, establishEvent]

theorem sendsWithin_remoteAuth (agent : AgentEnv) (r : Request) :
    Proc.sendsWithin (requestValues r) (remoteAuth agent r) := by
  unfold remoteAuth requestValues
  repeat' split
  all_goals simp_all [Proc.sendsWithin, Event.isChannelOp]

theorem getD_of_forall (Q : Proc → Prop) (l : List Proc) (hl : ∀ p ∈ l, Q p)
    (hret : Q Proc.ret) (j : Nat) : Q (l.getD j Proc.ret) := by
  rw [List.getD_eq_getElem?_getD]
  cases hj : l[j]? with
  | none => exact hret
  | some q => exact hl q (List.getElem?_mem hj)

theorem sendInv_start (ic : Bool) (env : ServerEnv) (unmarshal : String → Option Candidate)
    (agent : AgentEnv) (r : Request) (cands : List Request)
    (gathered : List (Option Candidate)) :
    SendInv r (serverProcess ic env unmarshal agent [r] cands gathered) := by
  refine ⟨requestValues r, rfl, ?_⟩
  intro j
  rcases j with _ | _ | j
  · exact sendsWithin_server ic env
  · exact sendsWithin_remoteAuth agent r
  · show Proc.sendsWithin (if j + 1 + 1 = 1 then requestValues r else [])
      ((List.map (remoteCandidate unmarshal agent) cands ++
        [serverCandidateNotifier gathered]).getD j Proc.ret)
    rw [if_neg (by omega)]
    apply getD_of_forall (Proc.sendsWithin [])
    · intro p hp
      simp only [List.mem_append, List.mem_map, List.mem_singleton] at hp
      rcases hp with ⟨c, _, rfl⟩ | rfl
      · exact sendsWithin_remoteCandidate unmarshal agent c
      · exact sendsWithin_notifier gathered
    · trivial

theorem requestValues_length (r : Request) : (requestValues r).length ≤ 2 := by
  unfold requestValues
  repeat' split
  all_goals simp

theorem requestValues_pair (r : Request) (u p : String) (h : requestValues r = [u, p]) :
    r.parseFormErr = none ∧ Form.first r.PostForm "ufrag" = some u ∧
      Form.first r.PostForm "pwd" = some p := by
  unfold requestValues at h
  revert h
  repeat' split
  all_goals simp_all

/-- In a server process that serves the single `/remoteAuth` request `r`: the
trace is causal, what was sent on `remoteAuthChannel` is a leading part of
`requestValues r`, and at a `Dial`/`Accept` call the request has both fields
and the call carries them. -/
theorem single_request (ic : Bool) (env : ServerEnv) (unmarshal : String → Option Candidate)
    (agent : AgentEnv) (r : Request) (cands : List Request)
    (gathered : List (Option Candidate)) (sched : List Choice) (s : Sys)
    (h : (serverProcess ic env unmarshal agent [r] cands gathered).exec sched = some s) :
    sentValues Chan.remoteAuthChannel s.trace <+: requestValues r ∧
    receivedValues Chan.remoteAuthChannel s.trace <+:
      sentValues Chan.remoteAuthChannel s.trace ∧
    ∀ pre e post, s.trace = pre ++ e :: post → e.isEstablish = true →
      ∃ u p, r.parseFormErr = none ∧ Form.first r.PostForm "ufrag" = some u ∧
        Form.first r.PostForm "pwd" = some p ∧ e = establishEvent ic u p ∧
        receivedValues Chan.remoteAuthChannel pre = [u, p] ∧
        sentValues Chan.remoteAuthChannel pre = [u, p] := by
  have hinv := inv_exec ic sched _ s (inv_start ic env unmarshal agent [r] cands gathered) h
  have hsend := exec_preserves (SendInv r) (sendInv_step r) sched _ s
    (sendInv_start ic env unmarshal agent r cands gathered) h
  obtain ⟨vs, hvs, _⟩ := hsend
  have hsent : sentValues Chan.remoteAuthChannel s.trace <+: requestValues r :=
    ⟨vs, hvs⟩
  refine ⟨hsent, hinv.2.2.2 s.trace (List.prefix_refl _), ?_⟩
  intro pre e post hsplit he
  obtain ⟨u, p, hr, heq⟩ := hinv.2.2.1 pre e post hsplit he
  have hpre : pre <+: s.trace := by rw [hsplit]; exact List.prefix_append _ _
  have hc := hinv.2.2.2 pre hpre
  rw [hr] at hc
  have hps : sentValues Chan.remoteAuthChannel pre <+: requestValues r :=
    List.IsPrefix.trans (List.IsPrefix.filterMap _ hpre) hsent
  have hlen := requestValues_length r
  have h1 : [u, p] = sentValues Chan.remoteAuthChannel pre := by
    apply hc.eq_of_length_le
    have := hps.length_le
    simp only [List.length_cons, List.length_nil]
    omega
  have h2 : sentValues Chan.remoteAuthChannel pre = requestValues r := by
    apply hps.eq_of_length_le
    rw [← h1]
    simpa using hlen
  obtain ⟨hp1, hp2, hp3⟩ := requestValues_pair r u p (by rw [← h2, ← h1])
  exact ⟨u, p, hp1, hp2, hp3, heq, hr, h1.symm⟩

/-! ## C1: the remote credential comes before Dial/Accept -/

/-- C1, counterexample.  The server process serves two `/remoteAuth`
requests: the first carries a `ufrag` but no `pwd` (its handler enqueues `u1`
and panics), the second is complete.  `mixedSchedule` is an execution in
which the server receives `u1` and then the ufrag `u2` of the second request
and calls `Accept` with the two: no pwd has been received, `p2` has not even
been sent, so the server has not obtained the credential of any peer. -/
theorem C1_accept_with_two_ufrags :
    mixedProcess.exec mixedSchedule = some mixedState ∧
    mixedState.trace.getLast? = some (Event.accept "u1" "u2") ∧
    receivedValues Chan.remoteAuthChannel mixedState.trace = ["u1", "u2"] ∧
    requestValues (requestOf [("ufrag", ["u1"])]) = ["u1"] ∧
    requestValues (requestOf [("ufrag", ["u2"]), ("pwd", ["p2"])]) = ["u2", "p2"] ∧
    "p2" ∉ sentValues Chan.remoteAuthChannel mixedState.trace :=
  ⟨rfl, by decide, by decide, by decide, by decide, by decide⟩

/-- C1, amended.  In every run of `client`, a `Dial`/`Accept` call comes
after the `/remoteAuth` response was received and decoded (the log line 210
precedes it) and is made with the decoded credential; when the credential is
not obtained the run panics without such a call.  In every run of `server`,
a `Dial`/`Accept` call comes after two values were received from
`remoteAuthChannel` and is made with these two values; while fewer than two
values arrive there is no such call and no established session.  In every
execution of a server process that serves a single `/remoteAuth` request,
the two values are the `ufrag` and the `pwd` of that request. -/
theorem C1_credential_before_establish (isControlling : Bool) (cenv : ClientEnv)
    (senv : ServerEnv) (feed : List (Option String)) :
    (∀ pre e post, ((client isControlling cenv).run feed).trace = pre ++ e :: post →
        e.isEstablish = true →
        ∃ u p, clientObtained cenv.authPost = some (u, p) ∧
          remoteCredentialLog u p ∈ pre ∧ e = establishEvent isControlling u p) ∧
    (clientObtained cenv.authPost = none →
        ((client isControlling cenv).run feed).status = Status.panicked ∧
        ∀ e ∈ ((client isControlling cenv).run feed).trace, e.isEstablish = false) ∧
    (∀ pre e post, ((server isControlling senv).run feed).trace = pre ++ e :: post →
        e.isEstablish = true →
        ∃ u p, serverObtained feed = some (u, p) ∧
          [Event.received Chan.remoteAuthChannel u,
            Event.received Chan.remoteAuthChannel p].Sublist pre ∧
          e = establishEvent isControlling u p) ∧
    (serverObtained feed = none →
        ((server isControlling senv).run feed).status ≠ Status.established ∧
        ∀ e ∈ ((server isControlling senv).run feed).trace, e.isEstablish = false) ∧
    (∀ (unmarshal : String → Option Candidate) (agent : AgentEnv) (r : Request)
        (cands : List Request) (gathered : List (Option Candidate)) (sched : List Choice)
        (s : Sys),
        (serverProcess isControlling senv unmarshal agent [r] cands gathered).exec sched =
          some s →
        ∀ pre e post, s.trace = pre ++ e :: post → e.isEstablish = true →
          ∃ u p, r.parseFormErr = none ∧ Form.first r.PostForm "ufrag" = some u ∧
            Form.first r.PostForm "pwd" = some p ∧
            [Event.received Chan.remoteAuthChannel u,
              Event.received Chan.remoteAuthChannel p].Sublist pre ∧
            e = establishEvent isControlling u p) := by
  refine ⟨?_, client_fail_run isControlling cenv feed, ?_,
    server_fail_run isControlling senv feed, ?_⟩
  · intro pre e post hsplit he
    have hmem : e ∈ ((client isControlling cenv).run feed).trace := by
      rw [hsplit]; simp
    cases hob : clientObtained cenv.authPost with
    | none =>
      have := (client_fail_run isControlling cenv feed hob).2 e hmem
      rw [he] at this
      cases this
    | some up =>
      obtain ⟨u, p⟩ := up
      obtain ⟨hpre, hall⟩ := client_ok_run isControlling cenv feed u p hob
      refine ⟨u, p, rfl, ?_, hall e hmem he⟩
      have := precededBy_sound Event.isEstablish _ _ pre e post hpre hsplit he
      exact List.singleton_sublist.mp this
  · intro pre e post hsplit he
    have hmem : e ∈ ((server isControlling senv).run feed).trace := by
      rw [hsplit]; simp
    cases hob : serverObtained feed with
    | none =>
      have := (server_fail_run isControlling senv feed hob).2 e hmem
      rw [he] at this
      cases this
    | some up =>
      obtain ⟨u, p⟩ := up
      obtain ⟨hpre, hall⟩ := server_ok_run isControlling senv feed u p hob
      exact ⟨u, p, rfl, precededBy_sound Event.isEstablish _ _ pre e post hpre hsplit he,
        hall e hmem he⟩
  · intro unmarshal agent r cands gathered sched s h pre e post hsplit he
    obtain ⟨u, p, h1, h2, h3, heq, hr, _⟩ :=
      (single_request isControlling senv unmarshal agent r cands gathered sched s h).2.2
        pre e post hsplit he
    exact ⟨u, p, h1, h2, h3,
      received_sublist Chan.remoteAuthChannel pre [u, p] (by rw [hr]), heq⟩

/-- C1 amended, at a concrete input: the controlling sample client calls `Dial` with
the decoded credential `("us", "ps")` after logging it, and the controlled
sample server, fed `a` and `b`, calls `Accept` with that credential after
both receives. -/
theorem C1_credential_before_establish_witness :
    (∃ u p, clientObtained sampleClientEnv.authPost = some (u, p) ∧
      remoteCredentialLog u p ∈
        [Event.print "Local Agent is controlling",
          Event.print "Press \x27Enter\x27 when both processes have started",
          Event.readStdin, Event.newAgent, Event.onCandidate,
          Event.onConnectionStateChange, Event.getLocalUserCredentials,
          Event.postForm "http://1.15.130.58:9001/remoteAuth"
            [("ufrag", ["uc"]), ("pwd", ["pc"])],
          Event.log "remote ufrag pwd is : %s,%s" ["us", "ps"],
          Event.gatherCandidates] ∧
      Event.dial "us" "ps" = establishEvent true u p) ∧
    (∃ u p, serverObtained [some "a", some "b"] = some (u, p) ∧
      [Event.received Chan.remoteAuthChannel u,
        Event.received Chan.remoteAuthChannel p].Sublist
        [Event.handleFunc "/remoteAuth", Event.handleFunc "/remoteCandidate",
          Event.listenAndServe 9001, Event.print "Local Agent is controlled",
          Event.print "Press \x27Enter\x27 when both processes have started",
          Event.readStdin, Event.newAgent, Event.onCandidate,
          Event.onConnectionStateChange,
          Event.received Chan.remoteAuthChannel "a",
          Event.received Chan.remoteAuthChannel "b",
          Event.gatherCandidates] ∧
      Event.accept "a" "b" = establishEvent false u p) :=
  ⟨(C1_credential_before_establish true sampleClientEnv sampleServerEnv []).1
      _ (Event.dial "us" "ps") [] (by decide) (by decide),
    (C1_credential_before_establish false sampleClientEnv sampleServerEnv
      [some "a", some "b"]).2.2.1 _ (Event.accept "a" "b") [] (by decide) (by decide)⟩

/-! ## C2: exactly one of Dial/Accept, chosen by `isControlling` -/

/-- C2. For every value of the flags `isServer` and `isControlling`, a run of
`main` that reaches session establishment makes exactly one `Dial`/`Accept`
call: one `Dial` and no `Accept` when `isControlling` is true, one `Accept`
and no `Dial` when it is false, whatever `isServer` is.  A run whose session
is established has reached that step, and no run makes more than one such
call. -/
theorem C2_exactly_one_of_dial_accept (isServer isControlling : Bool) (cenv : ClientEnv)
    (senv : ServerEnv) (feed : List (Option String)) :
    (mainReaches isServer cenv senv feed = true →
      ((main isServer isControlling cenv senv).run feed).trace.countP Event.isDial +
        ((main isServer isControlling cenv senv).run feed).trace.countP Event.isAccept = 1 ∧
      (((main isServer isControlling cenv senv).run feed).trace.countP Event.isDial = 1 ↔
        isControlling = true) ∧
      (((main isServer isControlling cenv senv).run feed).trace.countP Event.isAccept = 1 ↔
        isControlling = false)) ∧
    (((main isServer isControlling cenv senv).run feed).status = Status.established →
      mainReaches isServer cenv senv feed = true) ∧
    ((main isServer isControlling cenv senv).run feed).trace.countP Event.isDial +
      ((main isServer isControlling cenv senv).run feed).trace.countP Event.isAccept ≤ 1 := by
  cases isServer
  · obtain ⟨hd, ha, hs⟩ := client_counts isControlling cenv feed
    simp only [main, mainReaches, Bool.false_eq_true, if_false]
    rw [hd, ha]
    refine ⟨?_, hs, ?_⟩
    · intro h
      rw [h]
      cases isControlling <;> simp
    · cases isControlling <;> cases clientReaches cenv <;> simp
  · obtain ⟨hd, ha, hs⟩ := server_counts isControlling senv feed
    simp only [main, mainReaches, if_true]
    rw [hd, ha]
    refine ⟨?_, hs, ?_⟩
    · intro h
      rw [h]
      cases isControlling <;> simp
    · cases isControlling <;> cases serverReaches senv feed <;> simp

/-- C2 at concrete inputs: the server role with `isControlling = false`
reaches establishment on the feed `a`, `b` and makes one `Accept` and no
`Dial`. -/
theorem C2_exactly_one_of_dial_accept_witness :
    ((main true false sampleClientEnv sampleServerEnv).run [some "a", some "b"]).trace.countP
        Event.isDial +
      ((main true false sampleClientEnv sampleServerEnv).run [some "a", some "b"]).trace.countP
        Event.isAccept = 1 ∧
    (((main true false sampleClientEnv sampleServerEnv).run [some "a", some "b"]).trace.countP
        Event.isDial = 1 ↔ false = true) ∧
    (((main true false sampleClientEnv sampleServerEnv).run [some "a", some "b"]).trace.countP
        Event.isAccept = 1 ↔ false = false) :=
  (C2_exactly_one_of_dial_accept true false sampleClientEnv sampleServerEnv
    [some "a", some "b"]).1 (by decide)

/-! ## C3: both sides see the same credential pairing -/

/-- C3. One successful `/remoteAuth` exchange: the client, whose agent has
the credential `(uc, pc)`, posts it as a form; the handler, whose agent has
`(us, ps)`, hands the two form values to `remoteAuthChannel` (ufrag first,
then pwd) and answers with the JSON encoding of its own credential; the
server receives what the handler sent and the client decodes what the handler
wrote.  Then the client obtains exactly `(us, ps)` and the server exactly
`(uc, pc)`, and these are the arguments of the `Dial`/`Accept` call each side
makes when it reaches establishment; ufrag and pwd are never swapped. -/
theorem C3_same_credential_pairing (uc pc us ps : String) (icC icS : Bool)
    (cenv : ClientEnv) (senv : ServerEnv) (cagent sagent : AgentEnv)
    (feed : List (Option String))
    (hc : cenv.newAgent = Except.ok cagent) (hcl : cagent.localCreds = Except.ok (uc, pc))
    (hsl : sagent.localCreds = Except.ok (us, ps))
    (hpost : cenv.authPost =
      httpReply ((remoteAuth sagent (requestOf [("ufrag", [uc]), ("pwd", [pc])])).run []))
    (hfeed : feed = (Run.sentOn Chan.remoteAuthChannel
      ((remoteAuth sagent (requestOf [("ufrag", [uc]), ("pwd", [pc])])).run [])).map some) :
    (∀ url form, Event.postForm url form ∈ ((client icC cenv).run []).trace →
      form = [("ufrag", [uc]), ("pwd", [pc])]) ∧
    Run.sentOn Chan.remoteAuthChannel
      ((remoteAuth sagent (requestOf [("ufrag", [uc]), ("pwd", [pc])])).run []) = [uc, pc] ∧
    jsonUnmarshal (bodyOf (Run.encoded
      ((remoteAuth sagent (requestOf [("ufrag", [uc]), ("pwd", [pc])])).run []))) =
      some { Ufrag := us, Pwd := ps, Candidate := "" } ∧
    clientObtained cenv.authPost = some (us, ps) ∧
    serverObtained feed = some (uc, pc) ∧
    ((client icC cenv).run []).trace.filter Event.isEstablish =
      (if clientReaches cenv then [establishEvent icC us ps] else []) ∧
    ((server icS senv).run feed).trace.filter Event.isEstablish =
      (if serverReaches senv feed then [establishEvent icS uc pc] else []) := by
  have hH : (remoteAuth sagent (requestOf [("ufrag", [uc]), ("pwd", [pc])])).run [] =
      { trace := [Event.sent Chan.remoteAuthChannel uc, Event.sent Chan.remoteAuthChannel pc,
          Event.log "receive remote auth" [], Event.getLocalUserCredentials,
          Event.encode (CandidateInfo.encode { Ufrag := us, Pwd := ps })],
        status := Status.returned } := by
    simp [remoteAuth, requestOf, Form.first, Form.values, List.lookup, hsl, Proc.run, Proc.runWith, lessRoom, Chan.cap, Run.cons]
  rw [hH] at hpost hfeed
  rw [hH]
  have hob : clientObtained cenv.authPost = some (us, ps) := by
    rw [hpost]
    simp [httpReply, Run.encoded, bodyOf, clientObtained, parseResp, readAll, jsonUnmarshal,
      decode_encode]
  have hfeed' : feed = [some uc, some pc] := by
    rw [hfeed]; simp [Run.sentOn, sentValues]
  subst hfeed'
  refine ⟨client_posted_form icC cenv [] cagent uc pc hc hcl, ?_, ?_, hob, rfl, ?_, ?_⟩
  · simp [Run.sentOn, sentValues]
  · simp [Run.encoded, bodyOf, jsonUnmarshal, decode_encode]
  · rw [client_establish_filter, hob]
    rfl
  · rw [server_establish_filter]
    rfl

/-- C3 at a concrete input: client credential `("uc", "pc")`, server
credential `("us", "ps")`, controlling client and controlled server; the
client dials with `("us", "ps")` and the server accepts with `("uc", "pc")`. -/
theorem C3_same_credential_pairing_witness :
    ((client true sampleClientEnv).run []).trace.filter Event.isEstablish =
      [Event.dial "us" "ps"] ∧
    ((server false sampleServerEnv).run [some "uc", some "pc"]).trace.filter
      Event.isEstablish = [Event.accept "uc" "pc"] :=
  ⟨(C3_same_credential_pairing "uc" "pc" "us" "ps" true false sampleClientEnv sampleServerEnv
      (agentOk "uc" "pc") (agentOk "us" "ps") [some "uc", some "pc"]
      rfl rfl rfl rfl rfl).2.2.2.2.2.1,
    (C3_same_credential_pairing "uc" "pc" "us" "ps" true false sampleClientEnv sampleServerEnv
      (agentOk "uc" "pc") (agentOk "us" "ps") [some "uc", some "pc"]
      rfl rfl rfl rfl rfl).2.2.2.2.2.2⟩

/-! ## C4: what has happened when the server calls Dial/Accept -/

/-- C4, counterexample.  In the server process that serves one `/remoteAuth`
request, the schedule `earlySchedule` is an execution: the two sends of the
handler go into the buffer of `remoteAuthChannel` (capacity 3), the server
receives both values and calls `Accept`, and at that point the handler has
written nothing to the response: it still has its log line,
`GetLocalUserCredentials` and `Encode` ahead. -/
theorem C4_accept_before_encode :
    authProcess.exec earlySchedule = some earlyState ∧
    earlyState.trace.getLast? = some (Event.accept "uc" "pc") ∧
    (∀ e ∈ earlyState.trace, e.isEncode = false) ∧
    (earlyState.exec [Choice.run 1, Choice.run 1, Choice.run 1]).map (fun s => s.trace) =
      some (earlyState.trace ++ [Event.log "receive remote auth" [],
        Event.getLocalUserCredentials,
        Event.encode [("ufrag", "us"), ("pwd", "ps"), ("candidate", "")]]) :=
  ⟨rfl, by decide, by decide, by decide⟩

/-- C4, amended.  In every execution of the server process (goroutine 0 runs
`server`; any number of `/remoteAuth` and `/remoteCandidate` requests are
served and any candidates gathered, in any interleaving), when the server
calls `Dial` or `Accept`, two values `u`, `p` were sent on
`remoteAuthChannel` and received by the server, in that order, before the
call, and the call is made with `u` and `p`.  When the process
serves a single `/remoteAuth` request, that request carries both fields and
`u`, `p` are its `ufrag` and its `pwd`: the server has received the
credential of the peer.  Nothing is said about the `Encode` step of the
handler. -/
theorem C4_establish_after_hand_off (ic : Bool) (env : ServerEnv)
    (unmarshal : String → Option Candidate) (agent : AgentEnv)
    (auths cands : List Request) (gathered : List (Option Candidate))
    (sched : List Choice) (s : Sys)
    (h : (serverProcess ic env unmarshal agent auths cands gathered).exec sched = some s)
    (pre : List Event) (e : Event) (post : List Event)
    (hsplit : s.trace = pre ++ e :: post) (he : e.isEstablish = true) :
    ∃ u p, e = establishEvent ic u p ∧
      [Event.sent Chan.remoteAuthChannel u, Event.sent Chan.remoteAuthChannel p].Sublist pre ∧
      [Event.received Chan.remoteAuthChannel u,
        Event.received Chan.remoteAuthChannel p].Sublist pre ∧
      (∀ r, auths = [r] →
        r.parseFormErr = none ∧ Form.first r.PostForm "ufrag" = some u ∧
          Form.first r.PostForm "pwd" = some p) := by
  have hinv := inv_exec ic sched _ s (inv_start ic env unmarshal agent auths cands gathered) h
  obtain ⟨u, p, hr, heq⟩ := hinv.2.2.1 pre e post hsplit he
  have hc := hinv.2.2.2 pre (by rw [hsplit]; exact List.prefix_append _ _)
  rw [hr] at hc
  refine ⟨u, p, heq, ?_, ?_, ?_⟩
  · exact sent_sublist Chan.remoteAuthChannel pre [u, p] hc.sublist
  · exact received_sublist Chan.remoteAuthChannel pre [u, p] (by rw [hr])
  · intro r hauths
    subst hauths
    obtain ⟨u', p', h1, h2, h3, _, hr', _⟩ :=
      (single_request ic env unmarshal agent r cands gathered sched s h).2.2
        pre e post hsplit he
    rw [hr] at hr'
    simp only [List.cons.injEq, and_true] at hr'
    obtain ⟨rfl, rfl⟩ := hr'
    exact ⟨h1, h2, h3⟩

/-- C4 amended, at a concrete input: the execution `earlySchedule` of
`authProcess`, split at its `Accept` call. -/
theorem C4_establish_after_hand_off_witness :
    ∃ u p, Event.accept "uc" "pc" = establishEvent false u p ∧
      [Event.sent Chan.remoteAuthChannel u, Event.sent Chan.remoteAuthChannel p].Sublist
        (earlyState.trace.take 14) ∧
      [Event.received Chan.remoteAuthChannel u,
        Event.received Chan.remoteAuthChannel p].Sublist (earlyState.trace.take 14) ∧
      (∀ r, [requestOf [("ufrag", ["uc"]), ("pwd", ["pc"])]] = [r] →
        r.parseFormErr = none ∧ Form.first r.PostForm "ufrag" = some u ∧
          Form.first r.PostForm "pwd" = some p) :=
  C4_establish_after_hand_off false sampleServerEnv unmarshalSample (agentOk "us" "ps")
    [requestOf [("ufrag", ["uc"]), ("pwd", ["pc"])]] [] [] earlySchedule earlyState rfl
    (earlyState.trace.take 14) (Event.accept "uc" "pc") [] rfl rfl

/-! ## C5: the reply of `/remoteCandidate` -/

/-- C5.  For every `/remoteCandidate` request whose form and candidate string
parse, the handler adds that candidate to the agent before any reply is
written, then writes exactly one JSON message whose `candidate` member is the
value received from `localCandidateChannel` when one is delivered before the
timer fires and the empty string otherwise, and returns; it takes at most
one value from the channel (none exactly when the timer case is taken). -/
theorem C5_reply_after_add (unmarshal : String → Option Candidate) (agent : AgentEnv)
    (r : Request) (feed : List (Option String)) (s : String) (c : Candidate)
    (hp : r.parseFormErr = none) (hs : Form.first r.PostForm "candidate" = some s)
    (hu : unmarshal s = some c) :
    ((remoteCandidate unmarshal agent r).run feed).status = Status.returned ∧
    (∀ pre e post, ((remoteCandidate unmarshal agent r).run feed).trace = pre ++ e :: post →
      e.isEncode = true → Event.addRemoteCandidate c ∈ pre) ∧
    Run.encoded ((remoteCandidate unmarshal agent r).run feed) =
      [CandidateInfo.encode { Candidate := (delivered feed).getD "" }] ∧
    (CandidateInfo.encode { Candidate := (delivered feed).getD "" }).lookup "candidate" =
      some ((delivered feed).getD "") ∧
    Run.receivedOn Chan.localCandidateChannel ((remoteCandidate unmarshal agent r).run feed) =
      (delivered feed).toList ∧
    (delivered feed = none ↔
      Event.timerFired ∈ ((remoteCandidate unmarshal agent r).run feed).trace) := by
  have hrun : (remoteCandidate unmarshal agent r).run feed =
      match delivered feed with
      | some v =>
        { trace := [Event.log "receive remote candidate" [], Event.addRemoteCandidate c,
            Event.received Chan.localCandidateChannel v,
            Event.encode (CandidateInfo.encode { Candidate := v })],
          status := Status.returned }
      | none =>
        { trace := [Event.log "receive remote candidate" [], Event.addRemoteCandidate c,
            Event.timerFired, Event.encode (CandidateInfo.encode { Candidate := "" }),
            Event.log "no local candidate" []],
          status := Status.returned } := by
    unfold remoteCandidate
    rcases feed with _ | ⟨_ | v, rest⟩ <;>
      simp [Proc.run, Proc.runWith, lessRoom, Chan.cap, Run.cons, hp, hs, hu, addRemoteCandidateErr, delivered]
  rw [hrun]
  cases hd : delivered feed with
  | none =>
    refine ⟨rfl, ?_, ?_, ?_, ?_, ?_⟩
    · intro pre e post hsplit he
      have := precededBy_sound Event.isEncode _ [Event.addRemoteCandidate c] pre e post
        (by simp [precededBy, Event.isEncode]) hsplit he
      exact List.singleton_sublist.mp this
    · simp [Run.encoded]
    · simp [CandidateInfo.encode, List.lookup]
    · simp [Run.receivedOn, receivedValues]
    · simp
  | some v =>
    refine ⟨rfl, ?_, ?_, ?_, ?_, ?_⟩
    · intro pre e post hsplit he
      have := precededBy_sound Event.isEncode _ [Event.addRemoteCandidate c] pre e post
        (by simp [precededBy, Event.isEncode]) hsplit he
      exact List.singleton_sublist.mp this
    · simp [Run.encoded]
    · simp [CandidateInfo.encode, List.lookup]
    · simp [Run.receivedOn, receivedValues]
    · simp

/-- C5 at a concrete input: the sample request is served while the
server sample candidate is waiting; the reply is one message carrying it. -/
theorem C5_reply_after_add_witness :
    Run.encoded ((remoteCandidate unmarshalSample (agentOk "us" "ps")
        sampleCandidateRequest).run [some sampleServerCandidate.marshal]) =
      [CandidateInfo.encode { Candidate := sampleServerCandidate.marshal }] :=
  (C5_reply_after_add unmarshalSample (agentOk "us" "ps") sampleCandidateRequest
    [some sampleServerCandidate.marshal] sampleCandidate.marshal sampleCandidate
    rfl (by decide) (by decide)).2.2.1

/-! ## C6: the relay of candidates -/

/-- C6, the code at the failing input.  The callback of the server (lines
289-296, under the comment of line 288 that a gathered candidate is sent to
the remote peer) only sends on the unbuffered `localCandidateChannel`: on
its own it logs the candidate and blocks.  The client gathers one candidate
and the server two.  `relaySchedule` is an execution of the server process:
the one `/remoteCandidate` request is answered with the first server
candidate, the callback for the second one logs it (before `Accept`) and
waits to send.  From that state on, in every continuation, nothing more is
ever received from `localCandidateChannel`: no handler is left to take the
second candidate, so it never reaches the client. -/
theorem C6_server_candidate_undelivered :
    ((serverOnCandidate (some sampleServerCandidate2)).run []).status = Status.blocked ∧
    Run.sentOn Chan.localCandidateChannel
      ((serverOnCandidate (some sampleServerCandidate2)).run []) = [] ∧
    relayProcess.exec relaySchedule = some relayStuck ∧
    Event.log "local candidate is : %s" [sampleServerCandidate2.text] ∈ relayStuck.trace ∧
    relayStuck.trace.getLast? = some (Event.accept "uc" "pc") ∧
    ∀ sched s, relayStuck.exec sched = some s →
      receivedValues Chan.localCandidateChannel s.trace = [sampleServerCandidate.marshal] := by
  refine ⟨by decide, by decide, rfl, by decide, by decide, ?_⟩
  intro sched s h
  rw [noRecv_exec Chan.localCandidateChannel sched relayStuck s ?_ h]
  · decide
  · intro p hp
    simp only [relayStuck, List.mem_cons, List.mem_singleton, List.not_mem_nil, or_false] at hp
    rcases hp with rfl | rfl | rfl | rfl <;> simp [Proc.noRecv]

/-! ## C7: a bad `/remoteCandidate` request has no effect -/

/-- C7. For every `/remoteCandidate` request whose form fails to parse or
whose candidate string `ice.UnmarshalCandidate` rejects, the handler panics
and nothing else happens: no `AddRemoteCandidate` call, no value taken from
`localCandidateChannel`, nothing written to the response. -/
theorem C7_bad_candidate_request_has_no_effect (unmarshal : String → Option Candidate)
    (agent : AgentEnv) (r : Request) (feed : List (Option String))
    (h : r.parseFormErr ≠ none ∨
      ∃ s, Form.first r.PostForm "candidate" = some s ∧ unmarshal s = none) :
    ((remoteCandidate unmarshal agent r).run feed).status = Status.panicked ∧
    (∀ e ∈ ((remoteCandidate unmarshal agent r).run feed).trace,
      e.isAddRemoteCandidate = false) ∧
    Run.receivedOn Chan.localCandidateChannel ((remoteCandidate unmarshal agent r).run feed) = [] ∧
    Run.encoded ((remoteCandidate unmarshal agent r).run feed) = [] := by
  have hrun : (remoteCandidate unmarshal agent r).run feed =
      { trace := [Event.log "receive remote candidate" []], status := Status.panicked } := by
    unfold remoteCandidate
    rcases h with h | ⟨s, hs, hu⟩
    · cases hp : r.parseFormErr with
      | none => exact absurd hp h
      | some e => simp [Proc.run, Proc.runWith, lessRoom, Chan.cap, Run.cons]
    · cases hp : r.parseFormErr with
      | none => simp [Proc.run, Proc.runWith, lessRoom, Chan.cap, Run.cons, hs, hu]
      | some e => simp [Proc.run, Proc.runWith, lessRoom, Chan.cap, Run.cons]
  rw [hrun]
  simp [Run.receivedOn, receivedValues, Run.encoded, Event.isAddRemoteCandidate]

/-- C7 at a concrete input: the candidate string `garbage` is rejected while
a local candidate is waiting; the handler panics without touching anything. -/
theorem C7_bad_candidate_request_has_no_effect_witness :
    ((remoteCandidate unmarshalSample (agentOk "us" "ps")
      (requestOf [("candidate", ["garbage"])])).run
        [some sampleServerCandidate.marshal]).status = Status.panicked ∧
    (∀ e ∈ ((remoteCandidate unmarshalSample (agentOk "us" "ps")
      (requestOf [("candidate", ["garbage"])])).run
        [some sampleServerCandidate.marshal]).trace, e.isAddRemoteCandidate = false) ∧
    Run.receivedOn Chan.localCandidateChannel
      ((remoteCandidate unmarshalSample (agentOk "us" "ps")
        (requestOf [("candidate", ["garbage"])])).run
          [some sampleServerCandidate.marshal]) = [] ∧
    Run.encoded ((remoteCandidate unmarshalSample (agentOk "us" "ps")
      (requestOf [("candidate", ["garbage"])])).run
        [some sampleServerCandidate.marshal]) = [] :=
  C7_bad_candidate_request_has_no_effect unmarshalSample (agentOk "us" "ps")
    (requestOf [("candidate", ["garbage"])]) [some sampleServerCandidate.marshal]
    (Or.inr ⟨"garbage", by decide, by decide⟩)

/-! ## C8: the members of the JSON replies -/

/-- C8, counterexample.  The reply to `/remoteAuth` for the credential
`("us", "ps")` carries a third member `candidate` (empty), and the replies to
`/remoteCandidate`, with a candidate and with the empty marker, carry a
member `pwd` (empty): both replies are encodings of the one struct
`CandidateInfo`, of whose three tags only `ufrag` has `omitempty`. -/
theorem C8_replies_carry_foreign_members :
    Run.encoded ((remoteAuth (agentOk "us" "ps")
        (requestOf [("ufrag", ["uc"]), ("pwd", ["pc"])])).run []) =
      [[("ufrag", "us"), ("pwd", "ps"), ("candidate", "")]] ∧
    Run.encoded ((remoteCandidate unmarshalSample (agentOk "us" "ps")
        sampleCandidateRequest).run [some sampleServerCandidate.marshal]) =
      [[("pwd", ""), ("candidate", sampleServerCandidate.marshal)]] ∧
    Run.encoded ((remoteCandidate unmarshalSample (agentOk "us" "ps")
        sampleCandidateRequest).run []) =
      [[("pwd", ""), ("candidate", "")]] := by
  decide

/-- C8, amended.  Every JSON document the `/remoteAuth` handler writes has
the members `pwd` and `candidate`, preceded by `ufrag` when the local ufrag
is not empty; `ufrag` and `pwd` hold the local credential and `candidate` is
the empty string.  Every JSON document the `/remoteCandidate` handler writes
has exactly the members `pwd` and `candidate`: `candidate` holds the value
taken from `localCandidateChannel` (the empty string as the empty marker)
and `pwd` is the empty string; it never has a member `ufrag`. -/
theorem C8_members_of_replies (unmarshal : String → Option Candidate) (agent : AgentEnv) (r : Request)
    (feed : List (Option String)) :
    (∀ o ∈ Run.encoded ((remoteAuth agent r).run feed),
      ∃ u p, agent.localCreds = Except.ok (u, p) ∧
        JsonObj.keys o = (if u = "" then [] else ["ufrag"]) ++ ["pwd", "candidate"] ∧
        o.lookup "ufrag" = (if u = "" then none else some u) ∧
        o.lookup "pwd" = some p ∧
        o.lookup "candidate" = some "") ∧
    (∀ o ∈ Run.encoded ((remoteCandidate unmarshal agent r).run feed),
      JsonObj.keys o = ["pwd", "candidate"] ∧
        o.lookup "candidate" = some ((delivered feed).getD "") ∧
        o.lookup "pwd" = some "") := by
  constructor
  · intro o ho
    unfold remoteAuth at ho
    revert ho
    repeat' split
    all_goals simp [Proc.run, Proc.runWith, lessRoom, Chan.cap, Run.cons, Run.encoded]
    rename_i u p hl
    intro ho
    subst ho
    refine ⟨u, p, hl, ?_⟩
    by_cases hu : u = "" <;> simp [JsonObj.keys, CandidateInfo.encode, hu, List.lookup]
  · intro o ho
    unfold remoteCandidate at ho
    revert ho
    repeat' split
    all_goals
      rcases feed with _ | ⟨_ | v, rest⟩ <;>
        simp [Proc.run, Proc.runWith, lessRoom, Chan.cap, Run.cons, Run.encoded, delivered]
    all_goals
      intro ho
      subst ho
      simp [JsonObj.keys, CandidateInfo.encode, List.lookup]

/-- C8 amended, at a concrete input: the reply of the sample `/remoteAuth`
exchange. -/
theorem C8_members_of_replies_witness :
    ∃ u p, (agentOk "us" "ps").localCreds = Except.ok (u, p) ∧
      JsonObj.keys [("ufrag", "us"), ("pwd", "ps"), ("candidate", "")] =
        (if u = "" then [] else ["ufrag"]) ++ ["pwd", "candidate"] ∧
      List.lookup "ufrag" [("ufrag", "us"), ("pwd", "ps"), ("candidate", "")] =
        (if u = "" then none else some u) ∧
      List.lookup "pwd" [("ufrag", "us"), ("pwd", "ps"), ("candidate", "")] = some p ∧
      List.lookup "candidate" [("ufrag", "us"), ("pwd", "ps"), ("candidate", "")] = some "" :=
  (C8_members_of_replies unmarshalSample (agentOk "us" "ps")
    (requestOf [("ufrag", ["uc"]), ("pwd", ["pc"])]) []).1
    [("ufrag", "us"), ("pwd", "ps"), ("candidate", "")] (by decide)

/-! ## C9: `parseResp` and error statuses -/

/-- The error `parseResp` returns is the error of `ReadAll`, whatever the
status code is. -/
theorem parseResp_err (resp : Response) : (parseResp resp).2 = resp.readErr := by
  unfold parseResp readAll
  simp only
  split
  · rfl
  · split <;> rfl

/-- C9, the code at the failing input.  For a response with status 500 whose
body is read without error, `parseResp` returns the nil slice together with a
nil error: the branch marked `// error` (line 362) returns the `err` of
`ReadAll`, which is nil there. -/
theorem C9_error_status_returns_nil_error :
    parseResp { StatusCode := 500, body := Bytes.object [("pwd", "")], readErr := none } =
      (Bytes.nil, none) := by
  decide

/-! ## C10: what `remoteAuth` hands to the server flow -/

/-- C10, counterexample.  A `/remoteAuth` request that carries `ufrag` but no
`pwd` enqueues one value and then panics on `r.PostForm["pwd"][0]`; when a
complete request follows, the two receives of `server` get the ufrag of the
first request and the ufrag of the second. -/
theorem C10_ufrag_alone_is_enqueued :
    Run.sentOn Chan.remoteAuthChannel
      ((remoteAuth (agentOk "us" "ps") (requestOf [("ufrag", ["u1"])])).run []) = ["u1"] ∧
    ((remoteAuth (agentOk "us" "ps") (requestOf [("ufrag", ["u1"])])).run []).status =
      Status.panicked ∧
    serverObtained
      ((Run.sentOn Chan.remoteAuthChannel
          ((remoteAuth (agentOk "us" "ps") (requestOf [("ufrag", ["u1"])])).run []) ++
        Run.sentOn Chan.remoteAuthChannel
          ((remoteAuth (agentOk "us" "ps")
            (requestOf [("ufrag", ["u2"]), ("pwd", ["p2"])])).runWith
              (lessRoom Chan.cap Chan.remoteAuthChannel) [])).map some) =
      some ("u1", "u2") := by
  decide

/-- C10, amended.  For every `/remoteAuth` request, what the handler would
send on `remoteAuthChannel` is `requestValues r`: nothing when the form fails
to parse or has no `ufrag` (the handler then panics with nothing enqueued),
the ufrag alone when the form has no `pwd` (the handler panics after that
send), the ufrag and then the pwd when it has both.  A send completes only
while the channel has room: with `room` places available exactly the first
`room` of these values are enqueued, and the handler blocks when a value is
left over.  In every execution of a server process that serves the single
request `r`, the values the server receives are the first of the values
sent, and those are the first of `requestValues r`. -/
theorem C10_values_enqueued (agent : AgentEnv) (r : Request) (room : Chan → Nat)
    (feed : List (Option String)) :
    Run.sentOn Chan.remoteAuthChannel ((remoteAuth agent r).runWith room feed) =
      (requestValues r).take (room Chan.remoteAuthChannel) ∧
    (room Chan.remoteAuthChannel < (requestValues r).length →
      ((remoteAuth agent r).runWith room feed).status = Status.blocked) ∧
    (r.parseFormErr ≠ none ∨ Form.first r.PostForm "ufrag" = none →
      requestValues r = [] ∧
      ((remoteAuth agent r).runWith room feed).status = Status.panicked) ∧
    (∀ u p, r.parseFormErr = none → Form.first r.PostForm "ufrag" = some u →
      Form.first r.PostForm "pwd" = some p → requestValues r = [u, p]) ∧
    (∀ u, r.parseFormErr = none → Form.first r.PostForm "ufrag" = some u →
      Form.first r.PostForm "pwd" = none →
      requestValues r = [u] ∧
      (1 ≤ room Chan.remoteAuthChannel →
        ((remoteAuth agent r).runWith room feed).status = Status.panicked)) ∧
    (∀ (ic : Bool) (env : ServerEnv) (unmarshal : String → Option Candidate)
        (cands : List Request) (gathered : List (Option Candidate)) (sched : List Choice)
        (s : Sys),
        (serverProcess ic env unmarshal agent [r] cands gathered).exec sched = some s →
        receivedValues Chan.remoteAuthChannel s.trace <+:
          sentValues Chan.remoteAuthChannel s.trace ∧
        sentValues Chan.remoteAuthChannel s.trace <+: requestValues r) := by
  refine ⟨?_, ?_, ?_, ?_, ?_, ?_⟩
  · unfold remoteAuth requestValues
    repeat' split
    all_goals
      rcases hroom : room Chan.remoteAuthChannel with _ | _ | n <;>
        simp [Proc.runWith, lessRoom, Run.cons, Run.sentOn, sentValues, hroom]
  · unfold remoteAuth requestValues
    repeat' split
    all_goals
      rcases hroom : room Chan.remoteAuthChannel with _ | _ | n <;>
        simp [Proc.runWith, lessRoom, Run.cons, hroom]
  · rintro (h | h)
    · cases hp : r.parseFormErr with
      | none => exact absurd hp h
      | some e => simp [requestValues, remoteAuth, hp, Proc.runWith]
    · cases hp : r.parseFormErr <;> simp [requestValues, remoteAuth, hp, h, Proc.runWith]
  · intro u p hp hu hq
    simp [requestValues, hp, hu, hq]
  · intro u hp hu hq
    refine ⟨by simp [requestValues, hp, hu, hq], ?_⟩
    intro hroom
    have : 0 < room Chan.remoteAuthChannel := hroom
    simp [remoteAuth, hp, hu, hq, Proc.runWith, Run.cons, this]
  · intro ic env unmarshal cands gathered sched s h
    have := single_request ic env unmarshal agent r cands gathered sched s h
    exact ⟨this.2.1, this.1⟩

/-- C10 amended, at a concrete input: a complete request that finds one free
place on the channel (two complete requests went before and nothing was
received) enqueues its ufrag and blocks on its pwd. -/
theorem C10_values_enqueued_witness :
    Run.sentOn Chan.remoteAuthChannel
        ((remoteAuth (agentOk "us" "ps")
          (requestOf [("ufrag", ["u3"]), ("pwd", ["p3"])])).runWith (fun _ => 1) []) =
      ["u3"] ∧
    ((remoteAuth (agentOk "us" "ps")
      (requestOf [("ufrag", ["u3"]), ("pwd", ["p3"])])).runWith (fun _ => 1) []).status =
      Status.blocked :=
  ⟨(C10_values_enqueued (agentOk "us" "ps") (requestOf [("ufrag", ["u3"]), ("pwd", ["p3"])])
      (fun _ => 1) []).1,
    (C10_values_enqueued (agentOk "us" "ps") (requestOf [("ufrag", ["u3"]), ("pwd", ["p3"])])
      (fun _ => 1) []).2.1 (by decide)⟩

end PingPong
